import Mathlib

/-!
# Verification of the extraction pipeline of the sephora-advanced-scraper repository

This file gives a shallow embedding, in Lean 4, of the parts of the Python
source that the specification talks about, and proves (or refutes) the
specified properties against that embedding.

Modelling conventions, used throughout:

* Python/JSON dynamic values are modelled by the inductive type `Json`
  (JSON `null` and Python `None` are the same value for `json.loads`
  output, so a single `null` constructor covers both).
* Python `float` is modelled by `ℚ` (exact decimal arithmetic); the
  concrete inputs appearing in theorems stay well inside the range where
  binary floating point and exact arithmetic agree on the stated results.
* Python strings are ASCII in all modelled call sites; whitespace sets
  (`str.strip`, regex `\s`) are modelled by the ASCII whitespace
  characters.
* A Python function that can raise an exception on some inputs is
  modelled with an `Option`/`Except` result, `none`/`error` standing for
  the raised exception.
* BeautifulSoup is an external collaborator: a parsed page is modelled by
  a structure holding exactly the query results the embedded code asks
  the soup for (meta tag contents, marker-element texts, and so on).
-/

/-- JSON/Python values as produced by `json.loads`: `null` doubles as the
Python `None` object, objects keep their key/value pairs as an ordered
association list with unique keys (as a Python `dict` does). Numbers keep
the `int`/`float` distinction that `json.loads` makes; `float` is modelled
as an exact rational. -/
inductive Json where
  | null : Json
  | bool (b : Bool) : Json
  | int (n : Int) : Json
  | float (q : ℚ) : Json
  | str (s : String) : Json
  | arr (items : List Json) : Json
  | obj (fields : List (String × Json)) : Json
deriving Repr

/-- A Python dict with `Json` values, as an ordered association list. -/
abbrev PyDict := List (String × Json)

/-- Python truthiness (`bool(v)`) on modelled JSON values. -/
def pyTruthy : Json → Bool
  | .null => false
  | .bool b => b
  | .int n => n != 0
  | .float q => q != 0
  | .str s => s != ""
  | .arr items => !items.isEmpty
  | .obj fields => !fields.isEmpty

/-- `d.get(key)` on a Python dict: the value at `key`, else `None`. -/
def dictGet (d : PyDict) (key : String) : Json :=
  match d.lookup key with
  | some v => v
  | none => .null

/-- `a or b` on Python values: `a` when truthy, else `b`. -/
def pyOr (a b : Json) : Json :=
  if pyTruthy a then a else b

/-- ASCII whitespace as recognised by `str.strip()` and regex `\s`. -/
def pyWsChar (c : Char) : Bool :=
  c = ' ' || c = '\t' || c = '\n' || c = '\r' || c = '\x0b' || c = '\x0c'

/-- Python `str.strip()` on ASCII text. -/
def pyStrip (s : String) : String :=
  String.mk (((s.toList.dropWhile pyWsChar).reverse.dropWhile pyWsChar).reverse)

/-! ## C8: URL deduplication

`src/src/main.py`, `dedupe_urls` (lines 58-68), and the inline
deduplication loop of `src/src/runner.py`, `main` (lines 234-241, using
`normalize_url = str.strip`). -/

/-- Loop of `main.py::dedupe_urls`: strip each entry, drop the empty
ones, record first occurrences in `seen`, append kept entries to the
result list `acc`. -/
def dedupeGo (seen acc : List String) : List String → List String
  | [] => acc
  | u :: rest =>
    if pyStrip u = "" then dedupeGo seen acc rest
    else if seen.contains (pyStrip u) then dedupeGo seen acc rest
    else dedupeGo (pyStrip u :: seen) (acc ++ [pyStrip u]) rest

/-- `main.py::dedupe_urls`. -/
def dedupe_urls (urls : List String) : List String :=
  dedupeGo [] [] urls

/-- The inline deduplication loop of `runner.py::main`: it keeps
`norm` when `norm and norm not in seen`. -/
def runnerDedupGo (seen acc : List String) : List String → List String
  | [] => acc
  | url :: rest =>
    if pyStrip url != "" && !(seen.contains (pyStrip url)) then
      runnerDedupGo (pyStrip url :: seen) (acc ++ [pyStrip url]) rest
    else runnerDedupGo seen acc rest

/-- The `unique_product_urls` list built by `runner.py::main`. -/
def runner_unique_urls (urls : List String) : List String :=
  runnerDedupGo [] [] urls

/-- Spec-side definition, following the words of the spec: keep exactly
the first occurrence of each string, preserving order. -/
def keepFirsts : List String → List String
  | [] => []
  | x :: xs => x :: ((keepFirsts xs).filter (fun y => y != x))

/-- Spec-side definition, following the words of the spec: trim each
entry, drop entries empty after trimming, then keep first occurrences. -/
def dedupe_spec (urls : List String) : List String :=
  keepFirsts ((urls.map pyStrip).filter (fun t => t != ""))

lemma keepFirsts_cons (x : String) (xs : List String) :
    keepFirsts (x :: xs) = x :: ((keepFirsts xs).filter (fun y => y != x)) := rfl

lemma dedupeGo_spec : ∀ (urls seen acc : List String),
    dedupeGo seen acc urls =
      acc ++ (keepFirsts ((urls.map pyStrip).filter (fun t => t != ""))).filter
        (fun t => !(seen.contains t)) := by
  intro urls
  induction urls with
  | nil => intro seen acc; simp [dedupeGo, keepFirsts]
  | cons u rest ih =>
    intro seen acc
    by_cases hE : pyStrip u = ""
    · have hb : (pyStrip u != "") = false := by simp [hE]
      simp only [dedupeGo, hE, if_true, List.map_cons, List.filter_cons, hb,
        Bool.false_eq_true, if_false]
      exact ih seen acc
    · have hb : (pyStrip u != "") = true := by simp [hE]
      by_cases hSeen : seen.contains (pyStrip u) = true
      · simp only [dedupeGo, hE, if_false, hSeen, if_true, List.map_cons,
          List.filter_cons, hb, keepFirsts_cons, Bool.not_true,
          Bool.false_eq_true]
        rw [ih seen acc]
        congr 1
        rw [List.filter_filter]
        apply List.filter_congr
        intro a _
        by_cases hax : a = pyStrip u
        · subst hax; rw [hSeen]; simp
        · have h1 : (a != pyStrip u) = true := by simp [hax]
          simp [h1]
      · have hSeen2 : seen.contains (pyStrip u) = false := by
          simpa using hSeen
        simp only [dedupeGo, hE, if_false, hSeen2, Bool.false_eq_true,
          List.map_cons, List.filter_cons, hb, if_true, keepFirsts_cons,
          Bool.not_false]
        rw [ih (pyStrip u :: seen) (acc ++ [pyStrip u])]
        simp only [List.append_assoc, List.singleton_append]
        congr 1
        rw [List.filter_filter]
        congr 1
        apply List.filter_congr
        intro a _
        by_cases hax : a = pyStrip u
        · subst hax; simp [List.contains_cons, hSeen2]
        · have h1 : (a != pyStrip u) = true := by simp [hax]
          simp [List.contains_cons, h1, hax]

lemma runnerDedupGo_eq_dedupeGo : ∀ (urls seen acc : List String),
    runnerDedupGo seen acc urls = dedupeGo seen acc urls := by
  intro urls
  induction urls with
  | nil => intro seen acc; rfl
  | cons u rest ih =>
    intro seen acc
    by_cases hE : pyStrip u = ""
    · have hb : (pyStrip u != "") = false := by simp [hE]
      simp only [runnerDedupGo, dedupeGo, hE, hb, Bool.false_and,
        Bool.false_eq_true, if_false, if_true]
      exact ih seen acc
    · have hb : (pyStrip u != "") = true := by simp [hE]
      by_cases hSeen : seen.contains (pyStrip u) = true
      · simp only [runnerDedupGo, dedupeGo, hE, hb, hSeen, Bool.not_true,
          Bool.true_and, Bool.false_eq_true, if_false, if_true]
        exact ih seen acc
      · have hSeen2 : seen.contains (pyStrip u) = false := by
          simpa using hSeen
        simp only [runnerDedupGo, dedupeGo, hE, hb, hSeen2, Bool.not_false,
          Bool.true_and, Bool.false_eq_true, if_false, if_true]
        exact ih (pyStrip u :: seen) (acc ++ [pyStrip u])

/-- C8. For every list of URL strings, deduplication first trims each
entry, drops entries that are empty after trimming, and keeps exactly the
first occurrence of each distinct trimmed string, preserving
first-occurrence order; this holds for both `main.py::dedupe_urls` and
the inline deduplication loop of `runner.py::main`, and in particular
`["a", " a ", "b", "a"]` deduplicates to `["a", "b"]`. -/
theorem claim_C8 :
    (∀ urls : List String,
      dedupe_urls urls = dedupe_spec urls ∧
      runner_unique_urls urls = dedupe_spec urls) ∧
    dedupe_urls ["a", " a ", "b", "a"] = ["a", "b"] := by
  constructor
  · intro urls
    constructor
    · rw [dedupe_urls, dedupeGo_spec, dedupe_spec]
      simp
    · rw [runner_unique_urls, runnerDedupGo_eq_dedupeGo, dedupeGo_spec, dedupe_spec]
      simp
  · rfl

/-! ## Numeric scalar normalizers

`src/src/extractors/utils_format.py`. Python `float` is modelled as `ℚ`;
`round` (no digits argument) is round-half-to-even, as in Python 3. The
model of `float(text)` covers finite decimal literals (the non-finite
literals `inf`/`nan` and underscore separators never occur at the
modelled call sites). -/

/-- Value of a list of decimal digit characters. -/
def digitsVal (ds : List Char) : ℕ :=
  ds.foldl (fun a c => 10 * a + (c.toNat - 48)) 0

/-- Sign prefix of a Python float literal: `-`, `+`, or nothing. -/
def splitSign : List Char → (Bool × List Char)
  | '-' :: rest => (true, rest)
  | '+' :: rest => (false, rest)
  | cs => (false, cs)

/-- Python `float(text)` on a finite decimal literal: optional
whitespace, optional sign, digits with an optional dot and an optional
exponent. `none` models a raised `ValueError`. -/
def pyFloatOfString (s : String) : Option ℚ :=
  let cs := (pyStrip s).toList
  let (neg, cs1) := splitSign cs
  let (ip, cs2) := cs1.span Char.isDigit
  let (fp, cs3) :=
    match cs2 with
    | '.' :: rest => rest.span Char.isDigit
    | _ => ([], cs2)
  if ip.isEmpty && fp.isEmpty then none
  else
    let mant : ℚ := (digitsVal ip : ℚ) + (digitsVal fp : ℚ) / ((10 : ℚ) ^ fp.length)
    let signed : ℚ := if neg then -mant else mant
    match cs3 with
    | [] => some signed
    | 'e' :: rest =>
      let (eneg, r1) := splitSign rest
      let (ed, r2) := r1.span Char.isDigit
      if ed.isEmpty || !r2.isEmpty then none
      else some (if eneg then signed / (10 : ℚ) ^ digitsVal ed else signed * (10 : ℚ) ^ digitsVal ed)
    | 'E' :: rest =>
      let (eneg, r1) := splitSign rest
      let (ed, r2) := r1.span Char.isDigit
      if ed.isEmpty || !r2.isEmpty then none
      else some (if eneg then signed / (10 : ℚ) ^ digitsVal ed else signed * (10 : ℚ) ^ digitsVal ed)
    | _ => none

/-- Python 3 `round(x)`: round half to even. -/
def pyRound (q : ℚ) : ℤ :=
  if Int.fract q < 1 / 2 then ⌊q⌋
  else if 1 / 2 < Int.fract q then ⌊q⌋ + 1
  else if ⌊q⌋ % 2 = 0 then ⌊q⌋ else ⌊q⌋ + 1

/-- Python `round(x, 2)`: round half to even at two decimal places. -/
def pyRound2 (q : ℚ) : ℚ :=
  (pyRound (q * 100) : ℚ) / 100

/-- `str.replace(",", "")`. -/
def stripCommas (s : String) : String :=
  String.mk (s.toList.filter (fun c => c != ','))

lemma abs_pyRound_sub_le (q : ℚ) : |(pyRound q : ℚ) - q| ≤ 1 / 2 := by
  have h0 : (0 : ℚ) ≤ Int.fract q := Int.fract_nonneg q
  have h1 : Int.fract q < 1 := Int.fract_lt_one q
  have hfq : (⌊q⌋ : ℚ) = q - Int.fract q := by
    rw [Int.fract]; ring
  rw [pyRound]
  by_cases hlt : Int.fract q < 1 / 2
  · rw [if_pos hlt, hfq, abs_le]
    constructor <;> nlinarith
  · rw [if_neg hlt]
    by_cases hgt : 1 / 2 < Int.fract q
    · rw [if_pos hgt]
      push_cast
      rw [hfq, abs_le]
      constructor <;> nlinarith
    · rw [if_neg hgt]
      have heq : Int.fract q = 1 / 2 := by linarith [not_lt.mp hlt, not_lt.mp hgt]
      by_cases hpar : ⌊q⌋ % 2 = 0
      · rw [if_pos hpar, hfq, heq, abs_le]
        constructor <;> linarith
      · rw [if_neg hpar]
        push_cast
        rw [hfq, heq, abs_le]
        constructor <;> linarith

/-! ## C5: popularity-count suffix parsing

`src/src/extractors/utils_format.py`, `parse_number_with_suffix`
(lines 39-55) and the regex `NUMBER_WITH_SUFFIX_RE` (line 7). -/

/-- Characters matched by the `[\d.,]+` group of `NUMBER_WITH_SUFFIX_RE`. -/
def numSuffixChar (c : Char) : Bool :=
  c.isDigit || c = '.' || c = ','

/-- Matching `NUMBER_WITH_SUFFIX_RE`, the regex
`caret \s* ([\d.,]+) \s* ([kKmM]?) \s* dollar`: on success returns the two
captured groups (number text, suffix text). -/
def matchNumberSuffix (text : String) : Option (String × String) :=
  let cs := text.toList.dropWhile pyWsChar
  let (num, rest0) := cs.span numSuffixChar
  if num.isEmpty then none
  else
    let rest1 := rest0.dropWhile pyWsChar
    let (suf, rest2) :=
      match rest1 with
      | c :: rs =>
        if c = 'k' || c = 'K' || c = 'm' || c = 'M' then ([c], rs) else ([], c :: rs)
      | [] => (([] : List Char), ([] : List Char))
    if (rest2.dropWhile pyWsChar).isEmpty then some (String.mk num, String.mk suf)
    else none

/-- The multiplier selected by the suffix (`k` → 1000, `m` → 1000000,
case-insensitive, else 1). -/
def suffixMult (suf : String) : ℚ :=
  if suf == "k" || suf == "K" then 1000
  else if suf == "m" || suf == "M" then 1000000
  else 1

/-- `utils_format.py::parse_number_with_suffix`. -/
def parse_number_with_suffix (text : String) (default : ℤ := 0) : ℤ :=
  if text = "" then default
  else
    match matchNumberSuffix text with
    | none => default
    | some (numStr, suf) =>
      match pyFloatOfString (stripCommas numStr) with
      | none => default
      | some v =>
        let v1 :=
          if suf == "k" || suf == "K" then v * 1000
          else if suf == "m" || suf == "M" then v * 1000000
          else v
        pyRound v1

/-- C5. For every popularity-count text matching the number-with-suffix
regex whose comma-stripped number group is a valid float literal of value
`q`, the suffix parser returns `q` times 1, 1000 or 1000000 (per the
case-insensitive `k`/`m` suffix) rounded to the nearest integer (half to
even, as Python rounds); in particular the distance between the returned
integer and the exact product is at most 1/2. -/
theorem claim_C5 (text numStr suf : String) (q : ℚ)
    (hm : matchNumberSuffix text = some (numStr, suf))
    (hq : pyFloatOfString (stripCommas numStr) = some q) :
    parse_number_with_suffix text = pyRound (q * suffixMult suf) ∧
    |(pyRound (q * suffixMult suf) : ℚ) - q * suffixMult suf| ≤ 1 / 2 := by
  have htext : ¬text = "" := by
    intro h
    subst h
    exact Option.noConfusion (hm.symm.trans rfl)
  constructor
  · simp only [parse_number_with_suffix, if_neg htext, hm, hq]
    by_cases hk : (suf == "k" || suf == "K") = true
    · simp only [hk, suffixMult, if_true]
    · by_cases hmm : (suf == "m" || suf == "M") = true
      · simp only [hk, hmm, suffixMult, Bool.false_eq_true, if_false, if_true]
      · simp only [hk, hmm, suffixMult, Bool.false_eq_true, if_false, mul_one]
  · exact abs_pyRound_sub_le _

/-- Witness for C5 at the inputs named by the spec: `"12.3k"` parses to
12300 (via the theorem), `"2M"` to 2000000 and `"450"` to 450. -/
theorem claim_C5_witness :
    matchNumberSuffix "12.3k" = some ("12.3", "k") ∧
    pyFloatOfString (stripCommas "12.3") = some (123 / 10) ∧
    parse_number_with_suffix "12.3k" = 12300 ∧
    parse_number_with_suffix "2M" = 2000000 ∧
    parse_number_with_suffix "450" = 450 := by
  refine ⟨by decide, by with_unfolding_all rfl, ?_, by with_unfolding_all rfl,
    by with_unfolding_all rfl⟩
  have h := (claim_C5 "12.3k" "12.3" "k" (123 / 10) (by decide)
    (by with_unfolding_all rfl)).1
  rw [h]
  with_unfolding_all rfl

/-! ## Scalar coercions of `utils_format.py`

`parse_float` / `parse_int` (lines 15-37): best-effort coercions that
return a default instead of raising. A Python `bool` is an instance of
`int`, so `True`/`False` behave as `1`/`0`. -/

/-- Truncation toward zero, as Python `int(float)`. -/
def qTrunc (q : ℚ) : ℤ :=
  q.num.tdiv (q.den : ℤ)

/-- `utils_format.py::parse_float`. -/
def parse_float (value : Json) (default : ℚ) : ℚ :=
  match value with
  | .null => default
  | .bool b => if b then 1 else 0
  | .int n => (n : ℚ)
  | .float q => q
  | .str s =>
    match pyFloatOfString (stripCommas (pyStrip s)) with
    | some q => q
    | none => default
  | .arr _ => default
  | .obj _ => default

/-- `utils_format.py::parse_int`. For `arr`/`obj` values, `str(value)`
never parses as a float, so the default is returned. -/
def parse_int (value : Json) (default : ℤ) : ℤ :=
  match value with
  | .null => default
  | .bool b => if b then 1 else 0
  | .int n => n
  | .float q => qTrunc q
  | .str s =>
    match pyFloatOfString (stripCommas (pyStrip s)) with
    | some q => qTrunc q
    | none => default
  | .arr _ => default
  | .obj _ => default

/-! ## C1 / C2: the two statistics computation paths

Path (a): `src/src/extractors/stats_extractor.py`,
`build_statistics_from_reviews` (lines 3-41).
Path (b): `src/src/extractors/product_parser.py`, `parse_statistics`
(lines 174-233). -/

/-- The dict returned by `build_statistics_from_reviews`. -/
structure StatsFromReviews where
  average_rating : Option ℚ
  helpful_vote_count : Option ℤ
  not_helpful_vote_count : Option ℤ
  recommended_review_count : Option ℤ
  review_count : ℕ
deriving Repr, DecidableEq

/-- The `isinstance(rating, (int, float))` test plus `float(rating)` of
the ratings loop (a Python `bool` passes the test and converts to 1/0). -/
def ratingNum : Json → Option ℚ
  | .bool b => some (if b then 1 else 0)
  | .int n => some ((n : ℚ))
  | .float q => some q
  | _ => none

/-- `stats_extractor.py::build_statistics_from_reviews`. -/
def build_statistics_from_reviews (reviews : List PyDict) : StatsFromReviews :=
  if reviews.length = 0 then
    { average_rating := none, helpful_vote_count := none, not_helpful_vote_count := none,
      recommended_review_count := none, review_count := 0 }
  else
    let ratings := reviews.filterMap (fun r => ratingNum (dictGet r "rating"))
    { average_rating :=
        if ratings.isEmpty then none else some (ratings.sum / (ratings.length : ℚ)),
      helpful_vote_count := none, not_helpful_vote_count := none,
      recommended_review_count := none, review_count := reviews.length }

/-- The queries `parse_statistics` makes against the soup: the text of
the `overall_rating` marker element, the text of the `total_reviews`
marker element, and for each histogram row the texts of its span cells. -/
structure StatsPage where
  overall_rating : Option String
  total_reviews : Option String
  histogram_rows : List (List String)
deriving Repr

/-- The dict returned by `parse_statistics` (note: no
`recommended_review_count` key, and no optional fields). -/
structure PageStats where
  average_rating : ℚ
  helpful_vote_count : ℤ
  not_helpful_vote_count : ℤ
  review_count : ℤ
  variant_count : ℤ
deriving Repr, DecidableEq

/-- `float(r.get("rating") or 0)` in the review aggregation loop of
`parse_statistics`; `none` models a raised exception (a truthy rating
that is not numeric and not float-parsable text). -/
def floatOfRating (v : Json) : Option ℚ :=
  match pyOr v (Json.int 0) with
  | .bool b => some (if b then 1 else 0)
  | .int n => some ((n : ℚ))
  | .float q => some q
  | .str s => pyFloatOfString s
  | _ => none

/-- The review aggregation loop of `parse_statistics`: accumulates
(total_rating, helpful_vote_count, not_helpful_vote_count). -/
def reviewsFold (acc : ℚ × ℤ × ℤ) : List PyDict → Option (ℚ × ℤ × ℤ)
  | [] => some acc
  | r :: rest =>
    match floatOfRating (dictGet r "rating") with
    | none => none
    | some q =>
      reviewsFold
        (acc.1 + q,
         acc.2.1 + parse_int (dictGet r "helpful_vote_count") 0,
         acc.2.2 + parse_int (dictGet r "not_helpful_vote_count") 0) rest

/-- The histogram loop of `parse_statistics`: accumulates
(total_reviews, weighted_sum); rows with fewer than two cells are
skipped. -/
def histFold (acc : ℤ × ℚ) : List (List String) → (ℤ × ℚ)
  | [] => acc
  | row :: rest =>
    match row with
    | c0 :: c1 :: _ =>
      histFold (acc.1 + parse_int (Json.str c1) 0,
        acc.2 + parse_float (Json.str c0) 0 * (parse_int (Json.str c1) 0 : ℚ)) rest
    | _ => histFold acc rest

/-- `extractors/product_parser.py::parse_statistics`; `none` models an
exception raised while coercing a review rating. -/
def parse_statistics (page : StatsPage) (reviews : List PyDict) : Option PageStats :=
  let avg0 : ℚ :=
    match page.overall_rating with
    | some t => parse_float (Json.str t) 0
    | none => 0
  let count0 : ℤ :=
    match page.total_reviews with
    | some t => parse_int (Json.str t) 0
    | none => 0
  if reviews.isEmpty then
    let res :=
      if page.histogram_rows.isEmpty then (avg0, count0)
      else
        let tw := histFold (0, 0) page.histogram_rows
        if 0 < tw.1 then (tw.2 / (tw.1 : ℚ), tw.1) else (avg0, count0)
    some { average_rating := if res.1 == 0 then 0 else pyRound2 res.1,
           helpful_vote_count := 0, not_helpful_vote_count := 0,
           review_count := res.2, variant_count := 0 }
  else
    match reviewsFold (0, 0, 0) reviews with
    | none => none
    | some (tr, h, nh) =>
      let res :=
        if 0 < reviews.length then (tr / (reviews.length : ℚ), (reviews.length : ℤ))
        else (avg0, count0)
      some { average_rating := if res.1 == 0 then 0 else pyRound2 res.1,
             helpful_vote_count := h, not_helpful_vote_count := nh,
             review_count := res.2, variant_count := 0 }

/-- C1 counterexample. On the page-reading path (`parse_statistics`),
an empty review list with no on-page summary and no histogram yields
zeros (average_rating 0.0, vote counts 0) and no
`recommended_review_count` field at all, not the claimed all-`None`
record. -/
theorem claim_C1_counterexample :
    parse_statistics { overall_rating := none, total_reviews := none, histogram_rows := [] }
      [] =
      some { average_rating := 0, helpful_vote_count := 0, not_helpful_vote_count := 0,
             review_count := 0, variant_count := 0 } := by
  with_unfolding_all rfl

/-- C1 (amended). Given an empty review list, the reviews-fold path
(`build_statistics_from_reviews`) reports all optional numeric fields as
None and review_count 0; the page-reading path (`parse_statistics`),
given additionally a page with no rating summary and no histogram,
instead reports plain zeros for average_rating and the vote counts
(review_count 0), and its result carries no recommended_review_count
field. -/
theorem claim_C1 :
    build_statistics_from_reviews [] =
      { average_rating := none, helpful_vote_count := none, not_helpful_vote_count := none,
        recommended_review_count := none, review_count := 0 } ∧
    ∀ page : StatsPage, page.overall_rating = none → page.total_reviews = none →
      page.histogram_rows = [] →
      parse_statistics page [] =
        some { average_rating := 0, helpful_vote_count := 0, not_helpful_vote_count := 0,
               review_count := 0, variant_count := 0 } := by
  refine ⟨rfl, ?_⟩
  rintro ⟨r, t, h⟩ hr ht hh
  simp only at hr ht hh
  subst hr; subst ht; subst hh
  with_unfolding_all rfl

/-- Witness for C1: the amended theorem applied at the fully empty
page. -/
theorem claim_C1_witness :
    parse_statistics { overall_rating := none, total_reviews := none, histogram_rows := [] }
      [] =
      some { average_rating := 0, helpful_vote_count := 0, not_helpful_vote_count := 0,
             review_count := 0, variant_count := 0 } :=
  claim_C1.2 { overall_rating := none, total_reviews := none, histogram_rows := [] }
    rfl rfl rfl

/-- C2 counterexample. On the `parse_statistics` path, the claim's own
example `[{rating: 4}, {rating: 5}, {rating: None}]` yields
average_rating 3.0 (the missing rating is coerced to 0 and included in
the mean), not the claimed 4.5; and on the
`build_statistics_from_reviews` path the mean is not rounded to two
decimal places: ratings 1, 1, 2 yield exactly 4/3, which differs from
its two-decimal rounding. -/
theorem claim_C2_counterexample :
    parse_statistics { overall_rating := none, total_reviews := none, histogram_rows := [] }
      [[("rating", Json.int 4)], [("rating", Json.int 5)], [("rating", Json.null)]] =
      some { average_rating := 3, helpful_vote_count := 0, not_helpful_vote_count := 0,
             review_count := 3, variant_count := 0 } ∧
    (build_statistics_from_reviews
      [[("rating", Json.int 1)], [("rating", Json.int 1)], [("rating", Json.int 2)]]).average_rating =
      some (4 / 3) ∧
    pyRound2 (4 / 3) ≠ (4 / 3 : ℚ) := by
  refine ⟨by with_unfolding_all rfl, by with_unfolding_all rfl, ?_⟩
  intro h
  have : pyRound2 (4 / 3) = 133 / 100 := by with_unfolding_all rfl
  rw [this] at h
  norm_num at h

/-- C2 (amended). For every non-empty review list, the reviews-fold
aggregator `build_statistics_from_reviews` reports review_count equal to
the full list length, reports no average when no review carries a
numeric rating, and otherwise reports as average exactly the unrounded
mean over only the reviews carrying a numeric rating (None-rated reviews
excluded from the mean but still counted in review_count). -/
theorem claim_C2 (reviews : List PyDict) (hne : reviews ≠ []) :
    (build_statistics_from_reviews reviews).review_count = reviews.length ∧
    ((reviews.filterMap (fun r => ratingNum (dictGet r "rating"))) = [] →
      (build_statistics_from_reviews reviews).average_rating = none) ∧
    ∀ q, (build_statistics_from_reviews reviews).average_rating = some q →
      q * ((reviews.filterMap (fun r => ratingNum (dictGet r "rating"))).length : ℚ) =
        (reviews.filterMap (fun r => ratingNum (dictGet r "rating"))).sum := by
  have hlen : ¬reviews.length = 0 := by
    intro h
    exact hne (List.length_eq_zero.mp h)
  refine ⟨?_, ?_, ?_⟩
  · rw [build_statistics_from_reviews, if_neg hlen]
  · intro hr
    rw [build_statistics_from_reviews, if_neg hlen]
    simp only [hr, List.isEmpty_nil, if_true]
  · intro q hq
    rw [build_statistics_from_reviews, if_neg hlen] at hq
    by_cases he : (reviews.filterMap (fun r => ratingNum (dictGet r "rating"))).isEmpty = true
    · simp only [he, if_true] at hq
      exact Option.noConfusion hq
    · simp only [he, Bool.false_eq_true, if_false, Option.some.injEq] at hq
      have hlen2 : ((reviews.filterMap (fun r => ratingNum (dictGet r "rating"))).length : ℚ) ≠ 0 := by
        have : (reviews.filterMap (fun r => ratingNum (dictGet r "rating"))) ≠ [] := by
          intro h0
          rw [h0] at he
          exact he rfl
        have : 0 < (reviews.filterMap (fun r => ratingNum (dictGet r "rating"))).length :=
          List.length_pos.mpr this
        exact_mod_cast Nat.pos_iff_ne_zero.mp this
      rw [← hq, div_mul_cancel₀ _ hlen2]

/-- Witness for C2: the amended theorem applied at the spec's example
list; the mean over the two numeric ratings is 4.5 and review_count is
3. -/
theorem claim_C2_witness :
    (build_statistics_from_reviews
      [[("rating", Json.int 4)], [("rating", Json.int 5)], [("rating", Json.null)]]).review_count = 3 ∧
    (build_statistics_from_reviews
      [[("rating", Json.int 4)], [("rating", Json.int 5)], [("rating", Json.null)]]).average_rating =
      some (9 / 2) := by
  have h := claim_C2
    [[("rating", Json.int 4)], [("rating", Json.int 5)], [("rating", Json.null)]]
    (by intro h; exact List.noConfusion h)
  refine ⟨h.1, by with_unfolding_all rfl⟩

/-! ## C3: locating the Product object among metadata blocks

`src/src/parser/product_parser.py`, `ProductParser._find_product_json`
(lines 68-76), and `src/src/extractors/product_parser.py`,
`_find_product_ld` (lines 35-43). -/

/-- Python `t == "Product"` (a string equals only an equal string). -/
def jsonEqStr (s : String) : Json → Bool
  | .str t => t == s
  | _ => false

/-- `ProductParser._find_product_json`: first object whose `@type` is the
target directly or as a member of a type-list. -/
def find_product_json : List PyDict → Option PyDict
  | [] => none
  | d :: rest =>
    match dictGet d "@type" with
    | .arr l => if l.any (jsonEqStr "Product") then some d else find_product_json rest
    | t => if jsonEqStr "Product" t then some d else find_product_json rest

/-- The membership/direct-tag test of `_find_product_json`, as a
predicate. -/
def matchesProductJson (d : PyDict) : Bool :=
  match dictGet d "@type" with
  | .arr l => l.any (jsonEqStr "Product")
  | t => jsonEqStr "Product" t

/-- The per-item test of `_find_product_ld`:
`isinstance(item, dict) and item.get("@type") == "Product"`. -/
def ldItemIsProduct : Json → Bool
  | .obj fields => jsonEqStr "Product" (dictGet fields "@type")
  | _ => false

/-- `extractors/product_parser.py::_find_product_ld`: only a direct
`@type == "Product"` tag is recognised, on dict blocks or on dict items
of a list block. -/
def find_product_ld : List Json → Option Json
  | [] => none
  | b :: rest =>
    match b with
    | .obj fields =>
      if jsonEqStr "Product" (dictGet fields "@type") then some (Json.obj fields)
      else find_product_ld rest
    | .arr items =>
      match items.find? ldItemIsProduct with
      | some item => some item
      | none => find_product_ld rest
    | _ => find_product_ld rest

lemma jsonEqStr_eq (s : String) (t : Json) (h : jsonEqStr s t = true) :
    t = Json.str s := by
  cases t with
  | str u =>
    have hu : u = s := by simpa [jsonEqStr] using h
    rw [hu]
  | null => simp [jsonEqStr] at h
  | bool b => simp [jsonEqStr] at h
  | int n => simp [jsonEqStr] at h
  | float q => simp [jsonEqStr] at h
  | arr l => simp [jsonEqStr] at h
  | obj f => simp [jsonEqStr] at h

lemma ldItemIsProduct_spec (j : Json) (h : ldItemIsProduct j = true) :
    ∃ fields, j = Json.obj fields ∧ dictGet fields "@type" = Json.str "Product" := by
  cases j with
  | obj fields =>
    exact ⟨fields, rfl, jsonEqStr_eq _ _ (by simpa [ldItemIsProduct] using h)⟩
  | null => simp [ldItemIsProduct] at h
  | bool b => simp [ldItemIsProduct] at h
  | int n => simp [ldItemIsProduct] at h
  | float q => simp [ldItemIsProduct] at h
  | arr l => simp [ldItemIsProduct] at h
  | str s => simp [ldItemIsProduct] at h

/-- C3 counterexample. `_find_product_ld` does not inspect type-lists:
on the claim's own example (a non-matching object followed by an object
whose type-list is `["Thing", "Product"]`) it returns `none` instead of
the second object. -/
theorem claim_C3_counterexample :
    find_product_ld
      [Json.obj [("@type", Json.str "Thing")],
       Json.obj [("@type", Json.arr [Json.str "Thing", Json.str "Product"])]] = none := rfl

/-- C3 (amended). `ProductParser._find_product_json` returns the first
object whose type tag matches "Product" directly or as a member of a
type-list, and `none` (not an error) when no object matches — in
particular the claim's example holds on that implementation; but
`_find_product_ld` only ever returns an object carrying a direct
`@type == "Product"` tag, so type-list-tagged objects are never found by
it. -/
theorem claim_C3 :
    (∀ objs : List PyDict, find_product_json objs = objs.find? matchesProductJson) ∧
    (∀ (blocks : List Json) (b : Json), find_product_ld blocks = some b →
      ∃ fields, b = Json.obj fields ∧ dictGet fields "@type" = Json.str "Product") := by
  constructor
  · intro objs
    induction objs with
    | nil => rfl
    | cons d rest ih =>
      simp only [find_product_json, matchesProductJson]
      cases hty : dictGet d "@type" with
      | arr l =>
        dsimp only
        by_cases hl : l.any (jsonEqStr "Product") = true
        · rw [if_pos hl, List.find?_cons_of_pos]
          simp [matchesProductJson, hty, hl]
        · rw [if_neg hl, List.find?_cons_of_neg, ih]
          simp [matchesProductJson, hty, hl]
      | null =>
        dsimp only
        rw [if_neg (by simp [jsonEqStr]), List.find?_cons_of_neg, ih]
        simp [matchesProductJson, hty, jsonEqStr]
      | bool bb =>
        dsimp only
        rw [if_neg (by simp [jsonEqStr]), List.find?_cons_of_neg, ih]
        simp [matchesProductJson, hty, jsonEqStr]
      | int n =>
        dsimp only
        rw [if_neg (by simp [jsonEqStr]), List.find?_cons_of_neg, ih]
        simp [matchesProductJson, hty, jsonEqStr]
      | float q =>
        dsimp only
        rw [if_neg (by simp [jsonEqStr]), List.find?_cons_of_neg, ih]
        simp [matchesProductJson, hty, jsonEqStr]
      | str s =>
        dsimp only
        by_cases hs : jsonEqStr "Product" (Json.str s) = true
        · rw [if_pos hs, List.find?_cons_of_pos]
          simp [matchesProductJson, hty, hs]
        · rw [if_neg hs, List.find?_cons_of_neg, ih]
          simp [matchesProductJson, hty, hs]
      | obj fields =>
        dsimp only
        rw [if_neg (by simp [jsonEqStr]), List.find?_cons_of_neg, ih]
        simp [matchesProductJson, hty, jsonEqStr]
  · intro blocks
    induction blocks with
    | nil => intro b h; exact Option.noConfusion h
    | cons blk rest ih =>
      intro b h
      cases blk with
      | obj fields =>
        simp only [find_product_ld] at h
        by_cases hp : jsonEqStr "Product" (dictGet fields "@type") = true
        · rw [if_pos hp] at h
          injection h with h2
          subst h2
          exact ⟨fields, rfl, jsonEqStr_eq _ _ hp⟩
        · rw [if_neg hp] at h
          exact ih b h
      | arr items =>
        simp only [find_product_ld] at h
        cases hfind : items.find? ldItemIsProduct with
        | some item =>
          rw [hfind] at h
          injection h with h2
          subst h2
          exact ldItemIsProduct_spec _ (List.find?_some hfind)
        | none =>
          rw [hfind] at h
          exact ih b h
      | null => simp only [find_product_ld] at h; exact ih b h
      | bool bb => simp only [find_product_ld] at h; exact ih b h
      | int n => simp only [find_product_ld] at h; exact ih b h
      | float q => simp only [find_product_ld] at h; exact ih b h
      | str s => simp only [find_product_ld] at h; exact ih b h

/-- Witness for C3: the claim's example list on `_find_product_json`
(via the theorem), and the direct-tag conclusion of the theorem at a
one-block list on `_find_product_ld`. -/
theorem claim_C3_witness :
    find_product_json
      [[("@type", Json.str "Thing")],
       [("@type", Json.arr [Json.str "Thing", Json.str "Product"])]] =
      some [("@type", Json.arr [Json.str "Thing", Json.str "Product"])] ∧
    ∃ fields, Json.obj [("@type", Json.str "Product")] = Json.obj fields ∧
      dictGet fields "@type" = Json.str "Product" := by
  constructor
  · rw [claim_C3.1]
    rfl
  · exact claim_C3.2 [Json.obj [("@type", Json.str "Product")]]
      (Json.obj [("@type", Json.str "Product")]) rfl

/-! ## C9: variant identifiers

Tier 1 of `src/src/extractors/product_parser.py::parse_product_variants`
(lines 117-172) and `src/src/parser/product_parser.py`,
`ProductParser._build_variants` (lines 149-179). -/

/-- List-level substring test (Python `pat in hay`): prefix check. -/
def isPrefixList : List Char → List Char → Bool
  | [], _ => true
  | _ :: _, [] => false
  | p :: ps, c :: cs => (p == c) && isPrefixList ps cs

/-- List-level substring test (Python `pat in hay`). -/
def containsSub : List Char → List Char → Bool
  | [], pat => pat.isEmpty
  | c :: rest, pat => isPrefixList pat (c :: rest) || containsSub rest pat

/-- Python `pat in hay` on strings. -/
def strContains (hay pat : String) : Bool :=
  containsSub hay.toList pat.toList

/-- Python `str(value)` on modelled values. Faithful for strings, ints,
bools and None; integral floats render as `n.0` as in Python; the
renderings of non-integral floats and of containers are schematic (the
call sites proved about only ever stringify strings, ints or the
synthesized placeholder). -/
def pyStr : Json → String
  | .null => "None"
  | .bool b => if b then "True" else "False"
  | .int n => toString n
  | .float q => if q.den = 1 then toString q.num ++ ".0" else toString q.num ++ "e0"
  | .str s => s
  | .arr _ => "[...]"
  | .obj _ => "\x7b...\x7d"

/-- `utils_format.py::clean_text` on a string: collapse whitespace runs
and trim (`" ".join(text.split())`). -/
def clean_text (s : String) : String :=
  if s = "" then ""
  else " ".intercalate ((s.split (fun c => pyWsChar c)).filter (fun t => t != ""))

/-- `clean_text` applied to an arbitrary value: falsy values give `""`,
truthy non-strings raise (`none`). -/
def cleanTextJ : Json → Option String
  | .str s => some (clean_text s)
  | v => if pyTruthy v then none else some ""

/-- A variant dict built by tier 1 / tier 2 of `parse_product_variants`
(the extractors path): `variant_id` is always a string
(`str(... or f-string placeholder)`). -/
structure VariantE where
  variant_id : String
  variant_description : String
  is_variant_available : Bool
  variant_name : String
  variant_image : Json
deriving Repr

/-- One tier-1 entry of `parse_product_variants`: the body of the
`for idx, v in enumerate(variants_ld)` loop for a dict entry `v`;
`none` models a raised exception (from `clean_text` on a truthy
non-string name). -/
def mkVariantLd (idx : ℕ) (fields : PyDict) : Option VariantE :=
  let variant_id := pyOr (dictGet fields "sku")
    (pyOr (dictGet fields "productID") (Json.str ("variant-" ++ toString idx)))
  let variant_name := pyOr (dictGet fields "name")
    (pyOr (dictGet fields "description") (Json.str ""))
  let variant_image := pyOr (dictGet fields "image") (Json.str "")
  let availability_raw := pyOr (dictGet fields "availability") (dictGet fields "itemCondition")
  let is_available :=
    match availability_raw with
    | .str s => !(strContains s "OutOfStock")
    | _ => true
  match cleanTextJ variant_name with
  | none => none
  | some nm =>
    some { variant_id := pyStr variant_id, variant_description := nm,
           is_variant_available := is_available, variant_name := nm,
           variant_image := variant_image }

/-- The tier-1 loop of `parse_product_variants`: `enumerate` indices
count every entry, non-dict entries are skipped. -/
def tier1Go (i : ℕ) : List Json → Option (List VariantE)
  | [] => some []
  | v :: rest =>
    match v with
    | .obj fields =>
      match mkVariantLd i fields with
      | none => none
      | some ve =>
        match tier1Go (i + 1) rest with
        | none => none
        | some ves => some (ve :: ves)
    | _ => tier1Go (i + 1) rest

/-- The queries the tier-2 tile loop makes against one variant tile. -/
structure VariantTile where
  sku_name : Option String
  first_span : Option String
  img_src : Option String
  has_out_of_stock : Bool
deriving Repr

/-- One tier-2 tile of `parse_product_variants`. -/
def tier2Tile (idx : ℕ) (tile : VariantTile) : VariantE :=
  let nm :=
    match tile.sku_name with
    | some t => clean_text t
    | none =>
      match tile.first_span with
      | some t => clean_text t
      | none => "Variant " ++ toString (idx + 1)
  { variant_id := "variant-" ++ toString idx,
    variant_description := nm,
    is_variant_available := !tile.has_out_of_stock,
    variant_name := nm,
    variant_image := Json.str (tile.img_src.getD "") }

/-- The tier-2 fallback list of `parse_product_variants`. -/
def tier2List (tiles : List VariantTile) : List VariantE :=
  tiles.enum.map (fun p => tier2Tile p.1 p.2)

/-- `extractors/product_parser.py::parse_product_variants`: tier 1 from
the located metadata object, tier 2 from variant tiles when tier 1
yields nothing. `none` models a raised exception. -/
def parse_product_variants (blocks : List Json) (tiles : List VariantTile) :
    Option (List VariantE) :=
  match find_product_ld blocks with
  | none => some (tier2List tiles)
  | some pj =>
    if pyTruthy pj then
      match pj with
      | .obj fields =>
        match pyOr (dictGet fields "isVariantOf") (dictGet fields "offers") with
        | .arr lst =>
          match tier1Go 0 lst with
          | none => none
          | some vs => if vs.isEmpty then some (tier2List tiles) else some vs
        | _ => some (tier2List tiles)
      | _ => none
    else some (tier2List tiles)

/-- A variant built by `ProductParser._build_variants` (the parser
path): `variant_id` is `Optional`. -/
structure VariantP where
  variant_id : Option String
  variant_description : Json
  is_variant_available : Option Bool
  variant_name : Json
  variant_image : Json
deriving Repr

/-- `ProductParser._is_offer_available`. -/
def is_offer_available (offer : PyDict) : Option Bool :=
  match dictGet offer "availability" with
  | .str s =>
    if strContains s.toLower "instock" || strContains s.toLower "in stock" then some true
    else if strContains s.toLower "outofstock" || strContains s.toLower "out of stock" then
      some false
    else none
  | _ => none

/-- One offer of `ProductParser._build_variants`:
`str(offer.get("sku") or offer.get("productID") or "") or None`. -/
def buildVariantOfOffer (offer : PyDict) : VariantP :=
  let s := pyStr (pyOr (dictGet offer "sku") (pyOr (dictGet offer "productID") (Json.str "")))
  { variant_id := if s = "" then none else some s,
    variant_description := dictGet offer "description",
    is_variant_available := is_offer_available offer,
    variant_name := dictGet offer "name",
    variant_image := dictGet offer "image" }

/-- The offers-list loop of `_build_variants`; a non-dict entry raises
(`offer.get` on a non-dict), modelled as `none`. -/
def offersGo : List Json → Option (List VariantP)
  | [] => some []
  | o :: rest =>
    match o with
    | .obj ofields =>
      match offersGo rest with
      | none => none
      | some vs => some (buildVariantOfOffer ofields :: vs)
    | _ => none

/-- `ProductParser._build_variants`. -/
def build_variants (product_json : Option Json) : Option (List VariantP) :=
  match product_json with
  | none => some []
  | some pj =>
    if pyTruthy pj then
      match pj with
      | .obj fields =>
        match dictGet fields "offers" with
        | .arr offers => offersGo offers
        | .obj ofields => some [buildVariantOfOffer ofields]
        | _ => some []
      | _ => none
    else some []

/-- C9 counterexample. On the `ProductParser._build_variants` path, an
offer entry carrying neither `sku` nor `productID` yields
`variant_id = None` (`str(... or "") or None`), not the synthesized
`variant-0` placeholder the claim requires. -/
theorem claim_C9_counterexample :
    build_variants
      (some (Json.obj [("offers", Json.arr [Json.obj [("name", Json.str "Shade 1")]])])) =
      some [{ variant_id := none, variant_description := Json.null,
              is_variant_available := none, variant_name := Json.str "Shade 1",
              variant_image := Json.null }] := rfl

lemma tier1Go_mem : ∀ (lst : List Json) (k : ℕ) (vs : List VariantE),
    tier1Go k lst = some vs →
    ∀ (i : ℕ) (fields : PyDict), lst.get? i = some (Json.obj fields) →
    ∃ ve ∈ vs, mkVariantLd (k + i) fields = some ve := by
  intro lst
  induction lst with
  | nil =>
    intro k vs _ i fields hg
    simp at hg
  | cons v rest ih =>
    intro k vs hv i fields hg
    cases i with
    | zero =>
      simp only [List.get?_cons_zero, Option.some.injEq] at hg
      subst hg
      simp only [tier1Go] at hv
      cases hmk : mkVariantLd k fields with
      | none =>
        rw [hmk] at hv
        exact Option.noConfusion hv
      | some ve =>
        rw [hmk] at hv
        cases hrest : tier1Go (k + 1) rest with
        | none =>
          rw [hrest] at hv
          exact Option.noConfusion hv
        | some ves =>
          rw [hrest] at hv
          injection hv with h2
          subst h2
          exact ⟨ve, List.mem_cons_self _ _, by rw [Nat.add_zero]; exact hmk⟩
    | succ j =>
      simp only [List.get?_cons_succ] at hg
      cases v with
      | obj vfields =>
        simp only [tier1Go] at hv
        cases hmk : mkVariantLd k vfields with
        | none =>
          rw [hmk] at hv
          exact Option.noConfusion hv
        | some ve =>
          rw [hmk] at hv
          cases hrest : tier1Go (k + 1) rest with
          | none =>
            rw [hrest] at hv
            exact Option.noConfusion hv
          | some ves =>
            rw [hrest] at hv
            injection hv with h2
            subst h2
            obtain ⟨ve2, hmem, hmk2⟩ := ih (k + 1) ves hrest j fields hg
            refine ⟨ve2, List.mem_cons_of_mem _ hmem, ?_⟩
            rw [show k + (j + 1) = k + 1 + j by omega]
            exact hmk2
      | null =>
        simp only [tier1Go] at hv
        obtain ⟨ve2, hmem, hmk2⟩ := ih (k + 1) vs hv j fields hg
        exact ⟨ve2, hmem, by rw [show k + (j + 1) = k + 1 + j by omega]; exact hmk2⟩
      | bool bb =>
        simp only [tier1Go] at hv
        obtain ⟨ve2, hmem, hmk2⟩ := ih (k + 1) vs hv j fields hg
        exact ⟨ve2, hmem, by rw [show k + (j + 1) = k + 1 + j by omega]; exact hmk2⟩
      | int n =>
        simp only [tier1Go] at hv
        obtain ⟨ve2, hmem, hmk2⟩ := ih (k + 1) vs hv j fields hg
        exact ⟨ve2, hmem, by rw [show k + (j + 1) = k + 1 + j by omega]; exact hmk2⟩
      | float q =>
        simp only [tier1Go] at hv
        obtain ⟨ve2, hmem, hmk2⟩ := ih (k + 1) vs hv j fields hg
        exact ⟨ve2, hmem, by rw [show k + (j + 1) = k + 1 + j by omega]; exact hmk2⟩
      | str s =>
        simp only [tier1Go] at hv
        obtain ⟨ve2, hmem, hmk2⟩ := ih (k + 1) vs hv j fields hg
        exact ⟨ve2, hmem, by rw [show k + (j + 1) = k + 1 + j by omega]; exact hmk2⟩
      | arr l =>
        simp only [tier1Go] at hv
        obtain ⟨ve2, hmem, hmk2⟩ := ih (k + 1) vs hv j fields hg
        exact ⟨ve2, hmem, by rw [show k + (j + 1) = k + 1 + j by omega]; exact hmk2⟩

/-- C9 (amended). On the extractors path (`parse_product_variants`
tier 1), the variant built from the dict entry at enumerate-index `i`
carries `variant_id = str(sku)` when `sku` is truthy, else
`str(productID)` when that is truthy, else the synthesized placeholder
`variant-i`; the id is always a string, never None, and every dict entry
of the variant list contributes such a variant. On the
`ProductParser._build_variants` path, by contrast, an offer with no
truthy `sku`/`productID` gets `variant_id = None`. -/
theorem claim_C9 :
    (∀ (i : ℕ) (fields : PyDict) (ve : VariantE), mkVariantLd i fields = some ve →
      ve.variant_id =
        (if pyTruthy (dictGet fields "sku") then pyStr (dictGet fields "sku")
         else if pyTruthy (dictGet fields "productID") then pyStr (dictGet fields "productID")
         else "variant-" ++ toString i)) ∧
    (∀ (lst : List Json) (vs : List VariantE),
      tier1Go 0 lst = some vs →
      ∀ (i : ℕ) (fields : PyDict), lst.get? i = some (Json.obj fields) →
      ∃ ve ∈ vs, mkVariantLd i fields = some ve) ∧
    (∀ offer : PyDict, ¬pyTruthy (dictGet offer "sku") = true →
      ¬pyTruthy (dictGet offer "productID") = true →
      (buildVariantOfOffer offer).variant_id = none) := by
  refine ⟨?_, ?_, ?_⟩
  · intro i fields ve hmk
    simp only [mkVariantLd] at hmk
    cases hct : cleanTextJ (pyOr (dictGet fields "name")
        (pyOr (dictGet fields "description") (Json.str ""))) with
    | none =>
      rw [hct] at hmk
      exact Option.noConfusion hmk
    | some nm =>
      rw [hct] at hmk
      injection hmk with h2
      subst h2
      simp only [pyOr]
      by_cases hsku : pyTruthy (dictGet fields "sku") = true
      · rw [if_pos hsku, if_pos hsku]
      · rw [if_neg hsku, if_neg hsku]
        by_cases hpid : pyTruthy (dictGet fields "productID") = true
        · rw [if_pos hpid, if_pos hpid]
        · rw [if_neg hpid, if_neg hpid]
          rfl
  · intro lst vs hv i fields hg
    have h := tier1Go_mem lst 0 vs hv i fields hg
    simpa using h
  · intro offer hsku hpid
    simp only [buildVariantOfOffer, pyOr, if_neg hsku, if_neg hpid]
    rfl

/-- Witness for C9: a dict entry with neither `sku` nor `productID` at
enumerate-index 2 receives the synthesized id `variant-2`. -/
theorem claim_C9_witness :
    ∃ ve, mkVariantLd 2 [] = some ve ∧
      ve.variant_id =
        (if pyTruthy (dictGet [] "sku") then pyStr (dictGet [] "sku")
         else if pyTruthy (dictGet [] "productID") then pyStr (dictGet [] "productID")
         else "variant-" ++ toString 2) ∧
      ve.variant_id = "variant-2" :=
  ⟨{ variant_id := "variant-2", variant_description := "", is_variant_available := true,
     variant_name := "", variant_image := Json.str "" },
   rfl, claim_C9.1 2 [] _ rfl, rfl⟩

/-! ## C10: the brand fallback of `ProductParser._build_product_info`

`src/src/parser/product_parser.py`, lines 78-147 (brand fallback at
lines 143-146), with `html_utils.extract_meta_tag` and
`html_utils.extract_numeric_from_text`. -/

/-- The meta-tag and body-text queries `_build_product_info` makes
against the soup. Each meta field holds the raw `content` attribute of
the matching tag when the tag exists. -/
structure InfoPage where
  og_title : Option String
  meta_title : Option String
  og_image : Option String
  meta_description : Option String
  twitter_data2 : Option String
  og_site_name : Option String
  body_text : String
deriving Repr

/-- `html_utils.py::extract_meta_tag`: the stripped content when the tag
exists and its content is truthy, else `None`. -/
def extract_meta_tag (content : Option String) : Option String :=
  match content with
  | some c => if c = "" then none else some (pyStrip c)
  | none => none

/-- Lift an optional string to a Python value (`None` or the string). -/
def jsonOfOpt : Option String → Json
  | some s => .str s
  | none => .null

/-- First maximal run of `[\d,.]` characters
(`re.search(r"[\d,.]+", text)`). -/
def findNumRun : List Char → Option (List Char)
  | [] => none
  | c :: rest =>
    if numSuffixChar c then some (c :: rest.takeWhile numSuffixChar)
    else findNumRun rest

/-- `html_utils.py::extract_numeric_from_text`. -/
def extract_numeric_from_text (text : String) : Option String :=
  if text = "" then none
  else
    match findNumRun text.toList with
    | some run => some (String.mk run)
    | none => none

/-- `re.search(r"/(P\d+)", url)`: first `/P<digits>` occurrence. -/
def findPId : List Char → Option String
  | [] => none
  | '/' :: 'P' :: more =>
    if (more.takeWhile Char.isDigit).isEmpty then findPId ('P' :: more)
    else some (String.mk ('P' :: more.takeWhile Char.isDigit))
  | _ :: rest => findPId rest

/-- The dataclass `ProductInfo` of `parser/product_parser.py`, with the
dynamic values its fields can actually hold. -/
structure ProductInfoP where
  id : Json
  name : Json
  image : Json
  description : Json
  is_available : Option Bool
  brand : Json
  price : Option String
  love_count : Option String
deriving Repr

/-- The brand value derived from the structured metadata section of
`_build_product_info` (string, nested-object name value, or None). -/
def brandFromLd (fields? : Option PyDict) : Json :=
  match fields? with
  | some f =>
    match dictGet f "brand" with
    | .obj bf => dictGet bf "name"
    | .str s => .str s
    | _ => .null
  | none => .null

/-- The final brand of `_build_product_info`: the metadata brand when
truthy, else `og:site_name` (via `extract_meta_tag`) or `"Sephora"`. -/
def brandFinal (page : InfoPage) (fields? : Option PyDict) : Json :=
  if pyTruthy (brandFromLd fields?) then brandFromLd fields?
  else pyOr (jsonOfOpt (extract_meta_tag page.og_site_name)) (Json.str "Sephora")

/-- The body of `ProductParser._build_product_info` once the located
metadata object (a dict, or absent/falsy) is known. -/
def buildInfoCore (page : InfoPage) (fields? : Option PyDict) (source_url : String) :
    ProductInfoP :=
  let id0 :=
    match fields? with
    | some f => pyOr (dictGet f "sku") (dictGet f "productID")
    | none => .null
  let name0 :=
    match fields? with
    | some f => dictGet f "name"
    | none => .null
  let desc0 :=
    match fields? with
    | some f =>
      match dictGet f "description" with
      | .str s => Json.str (pyStrip s)
      | _ => .null
    | none => .null
  let price0 :=
    match fields? with
    | some f =>
      match dictGet f "offers" with
      | .obj of =>
        if pyTruthy (dictGet of "price") then
          some (if pyTruthy (dictGet of "priceCurrency") then
                  pyStrip (pyStr (dictGet of "price") ++ " " ++ pyStr (dictGet of "priceCurrency"))
                else pyStr (dictGet of "price"))
        else none
      | _ => none
    | none => none
  let avail0 :=
    match fields? with
    | some f =>
      match dictGet f "offers" with
      | .obj of =>
        match dictGet of "availability" with
        | .str a => some (strContains a "InStock" || strContains a.toLower "instock")
        | _ => none
      | _ => none
    | none => none
  let name1 :=
    if pyTruthy name0 then name0
    else pyOr (jsonOfOpt (extract_meta_tag page.og_title))
      (jsonOfOpt (extract_meta_tag page.meta_title))
  let image1 := jsonOfOpt (extract_meta_tag page.og_image)
  let desc1 :=
    if pyTruthy desc0 then desc0
    else jsonOfOpt (extract_meta_tag page.meta_description)
  let love := extract_numeric_from_text ((extract_meta_tag page.twitter_data2).getD "")
  let avail1 :=
    match avail0 with
    | some b => some b
    | none =>
      some (!(strContains page.body_text.toLower "out of stock" ||
              strContains page.body_text.toLower "sold out"))
  let id1 :=
    if pyTruthy id0 then id0
    else
      match findPId source_url.toList with
      | some s => .str s
      | none => id0
  { id := id1, name := name1, image := image1, description := desc1,
    is_available := avail1, brand := brandFinal page fields?, price := price0,
    love_count := love }

/-- `ProductParser._build_product_info`; `none` models the exception
raised by `.get` when the located metadata object is truthy but not a
dict (which `_find_product_json` never produces). -/
def build_product_info (page : InfoPage) (product_json : Option Json) (source_url : String) :
    Option ProductInfoP :=
  match product_json with
  | none => some (buildInfoCore page none source_url)
  | some pj =>
    if pyTruthy pj then
      match pj with
      | .obj fields => some (buildInfoCore page (some fields) source_url)
      | _ => none
    else some (buildInfoCore page none source_url)

/-- C10 counterexample. The assembled brand need not be a string: a
metadata brand object whose `name` is the number 5 is stored as-is, so
`info.brand` is the integer 5. -/
theorem claim_C10_counterexample :
    (build_product_info
      { og_title := none, meta_title := none, og_image := none, meta_description := none,
        twitter_data2 := none, og_site_name := none, body_text := "" }
      (some (Json.obj [("brand", Json.obj [("name", Json.int 5)])]))
      "https://example.com/x").map ProductInfoP.brand = some (Json.int 5) := rfl

lemma brandFinal_truthy (page : InfoPage) (fields? : Option PyDict) :
    pyTruthy (brandFinal page fields?) = true := by
  rw [brandFinal]
  by_cases ht : pyTruthy (brandFromLd fields?) = true
  · rw [if_pos ht]; exact ht
  · rw [if_neg ht]
    cases hm : extract_meta_tag page.og_site_name with
    | none => rfl
    | some s =>
      by_cases hs : s = ""
      · subst hs
        rfl
      · have : pyTruthy (jsonOfOpt (some s)) = true := by
          simp [jsonOfOpt, pyTruthy, hs]
        rw [pyOr, if_pos this]
        exact this

lemma brandFinal_fallback (page : InfoPage) (fields? : Option PyDict)
    (h : ¬pyTruthy (brandFromLd fields?) = true) :
    brandFinal page fields? =
      Json.str (match extract_meta_tag page.og_site_name with
                | some s => if s = "" then "Sephora" else s
                | none => "Sephora") := by
  rw [brandFinal, if_neg h]
  cases hm : extract_meta_tag page.og_site_name with
  | none => rfl
  | some s =>
    by_cases hs : s = ""
    · subst hs
      rfl
    · have hts : pyTruthy (jsonOfOpt (some s)) = true := by
        simp [jsonOfOpt, pyTruthy, hs]
      rw [pyOr, if_pos hts]
      simp [jsonOfOpt, hs]

/-- C10 (amended). Whenever `_build_product_info` returns, the record's
brand is truthy — never None and never the empty string — and whenever
no truthy brand is derivable from the structured metadata it is exactly
the stripped `og:site_name` content when that is non-empty, else the
constant `"Sephora"`; so a reader cannot distinguish a genuinely
brandless page from one branded "Sephora". The brand is, however, not
always a string: a truthy non-string metadata brand name value is stored
as-is. -/
theorem claim_C10 :
    (∀ (page : InfoPage) (pj : Option Json) (url : String) (info : ProductInfoP),
      build_product_info page pj url = some info → pyTruthy info.brand = true) ∧
    (∀ (page : InfoPage) (fields? : Option PyDict),
      ¬pyTruthy (brandFromLd fields?) = true →
      brandFinal page fields? =
        Json.str (match extract_meta_tag page.og_site_name with
                  | some s => if s = "" then "Sephora" else s
                  | none => "Sephora")) ∧
    (∀ (page : InfoPage) (fields? : Option PyDict),
      (∃ s, brandFinal page fields? = Json.str s) ∨
      (brandFinal page fields? = brandFromLd fields? ∧
        pyTruthy (brandFromLd fields?) = true ∧
        ∀ s, brandFromLd fields? ≠ Json.str s)) := by
  refine ⟨?_, ?_, ?_⟩
  · intro page pj url info h
    have hbrand : ∀ f?, pyTruthy (buildInfoCore page f? url).brand = true := by
      intro f?
      show pyTruthy (brandFinal page f?) = true
      exact brandFinal_truthy page f?
    cases pj with
    | none =>
      rw [build_product_info] at h
      injection h with h2
      subst h2
      exact hbrand none
    | some v =>
      cases v with
      | obj fields =>
        simp only [build_product_info] at h
        by_cases ht : pyTruthy (Json.obj fields) = true
        · rw [if_pos ht] at h
          injection h with h2
          subst h2
          exact hbrand (some fields)
        · rw [if_neg ht] at h
          injection h with h2
          subst h2
          exact hbrand none
      | null =>
        simp only [build_product_info] at h
        rw [if_neg (by simp [pyTruthy])] at h
        injection h with h2
        subst h2
        exact hbrand none
      | bool b =>
        simp only [build_product_info] at h
        by_cases ht : pyTruthy (Json.bool b) = true
        · rw [if_pos ht] at h
          exact Option.noConfusion h
        · rw [if_neg ht] at h
          injection h with h2
          subst h2
          exact hbrand none
      | int n =>
        simp only [build_product_info] at h
        by_cases ht : pyTruthy (Json.int n) = true
        · rw [if_pos ht] at h
          exact Option.noConfusion h
        · rw [if_neg ht] at h
          injection h with h2
          subst h2
          exact hbrand none
      | float q =>
        simp only [build_product_info] at h
        by_cases ht : pyTruthy (Json.float q) = true
        · rw [if_pos ht] at h
          exact Option.noConfusion h
        · rw [if_neg ht] at h
          injection h with h2
          subst h2
          exact hbrand none
      | str s =>
        simp only [build_product_info] at h
        by_cases ht : pyTruthy (Json.str s) = true
        · rw [if_pos ht] at h
          exact Option.noConfusion h
        · rw [if_neg ht] at h
          injection h with h2
          subst h2
          exact hbrand none
      | arr l =>
        simp only [build_product_info] at h
        by_cases ht : pyTruthy (Json.arr l) = true
        · rw [if_pos ht] at h
          exact Option.noConfusion h
        · rw [if_neg ht] at h
          injection h with h2
          subst h2
          exact hbrand none
  · intro page fields? h
    exact brandFinal_fallback page fields? h
  · intro page fields?
    by_cases ht : pyTruthy (brandFromLd fields?) = true
    · cases hb : brandFromLd fields? with
      | str s =>
        left
        exact ⟨s, by rw [brandFinal, if_pos ht]; exact hb⟩
      | null =>
        rw [hb] at ht
        exact absurd ht (by simp [pyTruthy])
      | bool b =>
        right
        have ht2 : pyTruthy (Json.bool b) = true := hb ▸ ht
        refine ⟨?_, ht2, ?_⟩
        · rw [brandFinal, hb, if_pos ht2]
        · intro s hcontra
          exact Json.noConfusion hcontra
      | int n =>
        right
        have ht2 : pyTruthy (Json.int n) = true := hb ▸ ht
        refine ⟨?_, ht2, ?_⟩
        · rw [brandFinal, hb, if_pos ht2]
        · intro s hcontra
          exact Json.noConfusion hcontra
      | float q =>
        right
        have ht2 : pyTruthy (Json.float q) = true := hb ▸ ht
        refine ⟨?_, ht2, ?_⟩
        · rw [brandFinal, hb, if_pos ht2]
        · intro s hcontra
          exact Json.noConfusion hcontra
      | arr l =>
        right
        have ht2 : pyTruthy (Json.arr l) = true := hb ▸ ht
        refine ⟨?_, ht2, ?_⟩
        · rw [brandFinal, hb, if_pos ht2]
        · intro s hcontra
          exact Json.noConfusion hcontra
      | obj f =>
        right
        have ht2 : pyTruthy (Json.obj f) = true := hb ▸ ht
        refine ⟨?_, ht2, ?_⟩
        · rw [brandFinal, hb, if_pos ht2]
        · intro s hcontra
          exact Json.noConfusion hcontra
    · left
      exact ⟨_, brandFinal_fallback page fields? ht⟩

/-- Witness for C10: with no metadata brand and `og:site_name` content
`" Site X "`, the assembled brand is truthy and equals the stripped site
name. -/
theorem claim_C10_witness :
    pyTruthy (buildInfoCore
      { og_title := none, meta_title := none, og_image := none, meta_description := none,
        twitter_data2 := none, og_site_name := some " Site X ", body_text := "" }
      none "").brand = true ∧
    brandFinal
      { og_title := none, meta_title := none, og_image := none, meta_description := none,
        twitter_data2 := none, og_site_name := some " Site X ", body_text := "" }
      none = Json.str "Site X" := by
  constructor
  · exact claim_C10.1
      { og_title := none, meta_title := none, og_image := none, meta_description := none,
        twitter_data2 := none, og_site_name := some " Site X ", body_text := "" }
      none "" _ rfl
  · have h := claim_C10.2.1
      { og_title := none, meta_title := none, og_image := none, meta_description := none,
        twitter_data2 := none, og_site_name := some " Site X ", body_text := "" }
      none (by simp [brandFromLd, pyTruthy])
    rw [h]
    rfl

/-! ## C4: per-URL failure isolation in the two orchestrators

`src/src/main.py::main` (per-product loop, lines 154-175; modelled for
`include_similar = False`, whose extension is separately guarded) and
`src/src/runner.py::main` (per-product loop, lines 246-255) with
`runner.py::process_product` (lines 129-159). The transport
(`fetch_html`) and the parsers/extractors are external collaborators,
passed as functions; an `Except.error` result models a raised
exception. -/

/-- The mutable state of `main.py`'s product loop: `all_products` and
the `processed_product_urls` set. -/
structure MainState (α : Type) where
  all_products : List α
  processed : List String

/-- The per-product loop of `main.py::main`: duplicates are skipped,
fetch failure skips, a raised `parse_product` exception is caught and
skips, a truthy record is appended and the URL marked processed. -/
def mainLoop {ε α : Type} (fetch : String → Option String)
    (parse : String → String → Except ε α) (recTruthy : α → Bool) :
    List String → MainState α → MainState α
  | [], s => s
  | url :: rest, s =>
    if s.processed.contains url then mainLoop fetch parse recTruthy rest s
    else
      match fetch url with
      | none => mainLoop fetch parse recTruthy rest s
      | some html =>
        match parse html url with
        | .error _ => mainLoop fetch parse recTruthy rest s
        | .ok r =>
          if recTruthy r then
            mainLoop fetch parse recTruthy rest
              { all_products := s.all_products ++ [r], processed := s.processed ++ [url] }
          else mainLoop fetch parse recTruthy rest s

/-- The product payload assembled by `runner.py::process_product`. -/
structure RunnerRecord (ι ν ρ κ σ : Type) where
  info : ι
  product_variants : ν
  reviews : ρ
  questions : κ
  statistics : σ
deriving Repr, DecidableEq

/-- `runner.py::process_product`: fetch failure returns `None` (skip);
the five extractor calls run unguarded, so any raised exception
(`Except.error`) propagates. -/
def process_product {ε π ι ν ρ κ σ : Type} (fetch : String → Option π)
    (pInfo : π → String → Except ε ι) (pVars : π → Except ε ν)
    (pRevs : π → Except ε ρ) (pQs : π → Except ε κ) (pStats : π → ρ → Except ε σ)
    (url : String) : Except ε (Option (RunnerRecord ι ν ρ κ σ)) :=
  match fetch (pyStrip url) with
  | none => .ok none
  | some pg => do
    let info ← pInfo pg (pyStrip url)
    let vars ← pVars pg
    let revs ← pRevs pg
    let qs ← pQs pg
    let stats ← pStats pg revs
    .ok (some ⟨info, vars, revs, qs, stats⟩)

/-- The per-product loop of `runner.py::main`: no handler around
`process_product`, so its exceptions propagate out of the loop. -/
def runnerLoop {ε α : Type} (pp : String → Except ε (Option α)) :
    List String → Except ε (List α)
  | [] => .ok []
  | url :: rest =>
    match pp url with
    | .error e => .error e
    | .ok none => runnerLoop pp rest
    | .ok (some r) =>
      match runnerLoop pp rest with
      | .error e => .error e
      | .ok ds => .ok (r :: ds)

lemma mainLoop_skip_head {ε α : Type} (fetch : String → Option String)
    (parse : String → String → Except ε α) (recTruthy : α → Bool)
    (url html : String) (e : ε) (hf : fetch url = some html)
    (hp : parse html url = Except.error e) (ys : List String) (s : MainState α) :
    mainLoop fetch parse recTruthy (url :: ys) s = mainLoop fetch parse recTruthy ys s := by
  simp only [mainLoop]
  by_cases hdup : s.processed.contains url = true
  · rw [if_pos hdup]
  · rw [if_neg hdup, hf]
    simp only [hp]

lemma mainLoop_skip {ε α : Type} (fetch : String → Option String)
    (parse : String → String → Except ε α) (recTruthy : α → Bool)
    (url html : String) (e : ε) (hf : fetch url = some html)
    (hp : parse html url = Except.error e) :
    ∀ (xs ys : List String) (s : MainState α),
      mainLoop fetch parse recTruthy (xs ++ url :: ys) s =
        mainLoop fetch parse recTruthy (xs ++ ys) s := by
  intro xs
  induction xs with
  | nil =>
    intro ys s
    exact mainLoop_skip_head fetch parse recTruthy url html e hf hp ys s
  | cons x rest ih =>
    intro ys s
    simp only [List.cons_append, mainLoop]
    by_cases hdup : s.processed.contains x = true
    · rw [if_pos hdup, if_pos hdup]
      exact ih ys s
    · rw [if_neg hdup, if_neg hdup]
      cases hfx : fetch x with
      | none =>
        dsimp only
        exact ih ys s
      | some h2 =>
        dsimp only
        cases hpx : parse h2 x with
        | error e2 =>
          dsimp only
          exact ih ys s
        | ok r =>
          dsimp only
          by_cases htr : recTruthy r = true
          · rw [if_pos htr, if_pos htr]
            exact ih ys _
          · rw [if_neg htr, if_neg htr]
            exact ih ys s

lemma runnerLoop_skip {ε α : Type} (pp : String → Except ε (Option α))
    (url : String) (hok : pp url = Except.ok none) :
    ∀ (xs ys : List String),
      runnerLoop pp (xs ++ url :: ys) = runnerLoop pp (xs ++ ys) := by
  intro xs
  induction xs with
  | nil =>
    intro ys
    simp only [List.nil_append, runnerLoop, hok]
  | cons x rest ih =>
    intro ys
    simp only [List.cons_append, runnerLoop]
    cases hx : pp x with
    | error e => rfl
    | ok o =>
      cases o with
      | none =>
        dsimp only
        exact ih ys
      | some r =>
        dsimp only
        rw [List.append_eq, List.append_eq, ih ys]

/-- C4 counterexample. In `runner.py`, an extractor exception for the
first URL propagates out of the per-URL loop: the whole run errors and
the second (perfectly parseable) URL contributes nothing — contradicting
the claim that the exception never propagates and the run continues. -/
theorem claim_C4_counterexample :
    runnerLoop (process_product (fun u => some u)
        (fun pg _ => if pg = "u1" then Except.error () else Except.ok (0 : ℕ))
        (fun _ => Except.ok (0 : ℕ)) (fun _ => Except.ok (0 : ℕ))
        (fun _ => Except.ok (0 : ℕ)) (fun _ _ => Except.ok (0 : ℕ)))
      ["u1", "u2"] = Except.error () ∧
    process_product (fun u => some u)
        (fun pg _ => if pg = "u1" then Except.error () else Except.ok (0 : ℕ))
        (fun _ => Except.ok (0 : ℕ)) (fun _ => Except.ok (0 : ℕ))
        (fun _ => Except.ok (0 : ℕ)) (fun _ _ => Except.ok (0 : ℕ)) "u2" =
      Except.ok (some ⟨0, 0, 0, 0, 0⟩) := ⟨rfl, rfl⟩

/-- C4 (amended). In `main.py`'s per-URL loop an unexpected
`parse_product` exception is caught: the URL is skipped, the loop
continues, and accumulated state is unaffected (the run over the list
with the failing URL equals the run over the list without it, from any
state). In `runner.py`'s loop only fetch failures are isolated the same
way; an extractor exception propagates out of the loop (see the
counterexample). -/
theorem claim_C4 :
    (∀ {ε α : Type} (fetch : String → Option String)
       (parse : String → String → Except ε α) (recTruthy : α → Bool)
       (url html : String) (e : ε), fetch url = some html →
       parse html url = Except.error e →
       ∀ (xs ys : List String) (s : MainState α),
         mainLoop fetch parse recTruthy (xs ++ url :: ys) s =
           mainLoop fetch parse recTruthy (xs ++ ys) s) ∧
    (∀ {ε α : Type} (pp : String → Except ε (Option α)) (url : String),
       pp url = Except.ok none →
       ∀ (xs ys : List String),
         runnerLoop pp (xs ++ url :: ys) = runnerLoop pp (xs ++ ys)) ∧
    (∀ {ε α : Type} (pp : String → Except ε (Option α)) (url : String) (e : ε),
       pp url = Except.error e →
       ∀ rest : List String, runnerLoop pp (url :: rest) = Except.error e) := by
  refine ⟨?_, ?_, ?_⟩
  · intro ε α fetch parse recTruthy url html e hf hp xs ys s
    exact mainLoop_skip fetch parse recTruthy url html e hf hp xs ys s
  · intro ε α pp url hok xs ys
    exact runnerLoop_skip pp url hok xs ys
  · intro ε α pp url e herr rest
    simp only [runnerLoop, herr]

/-- Witness for C4: with a parser that throws only on `"bad"`, the run
over `["a", "bad", "b"]` equals the run over `["a", "b"]` (via the
theorem), which collects both surviving records. -/
theorem claim_C4_witness :
    mainLoop (fun _ => some "h")
        (fun _ u => if u = "bad" then Except.error () else Except.ok (0 : ℕ))
        (fun _ => true) ["a", "bad", "b"] { all_products := [], processed := [] } =
      mainLoop (fun _ => some "h")
        (fun _ u => if u = "bad" then Except.error () else Except.ok (0 : ℕ))
        (fun _ => true) ["a", "b"] { all_products := [], processed := [] } ∧
    mainLoop (fun _ => some "h")
        (fun _ u => if u = "bad" then Except.error () else Except.ok (0 : ℕ))
        (fun _ => true) ["a", "b"] { all_products := [], processed := [] } =
      { all_products := [0, 0], processed := ["a", "b"] } := by
  refine ⟨?_, rfl⟩
  exact claim_C4.1 (fun _ => some "h")
    (fun _ u => if u = "bad" then Except.error () else Except.ok (0 : ℕ))
    (fun _ => true) "bad" "h" () rfl (by rfl) ["a"] ["b"]
    { all_products := [], processed := [] }

/-! ## A strict JSON parser (model of Python `json.loads`)

Used by both metadata-block scanners. The model covers the standard JSON
grammar: objects (duplicate keys last-wins, as Python dicts), arrays,
strings with the standard escapes (`\uXXXX` restricted to non-surrogate
code points), numbers (`int` when there is no fraction/exponent, else
`float` as an exact rational), `true`/`false`/`null`, and requires the
whole input to be consumed up to trailing whitespace. The non-standard
`NaN`/`Infinity` extension that CPython accepts is not modelled (it
cannot be represented in `ℚ` and never occurs in the inputs reasoned
about). -/

/-- JSON whitespace (`json.loads` skips exactly these). -/
def jsonWs (c : Char) : Bool :=
  c = ' ' || c = '\t' || c = '\n' || c = '\r'

/-- Skip JSON whitespace. -/
def skipWs (cs : List Char) : List Char :=
  cs.dropWhile jsonWs

/-- Hex digit value. -/
def hexVal : Char → Option ℕ
  | c =>
    if c.isDigit then some (c.toNat - 48)
    else if 'a' ≤ c && c ≤ 'f' then some (c.toNat - 87)
    else if 'A' ≤ c && c ≤ 'F' then some (c.toNat - 55)
    else none

/-- Update a key in a Python dict: replace in place when present
(last value wins), else append. -/
def dictSet (d : PyDict) (k : String) (v : Json) : PyDict :=
  if (d.lookup k).isSome then d.map (fun p => if p.1 = k then (k, v) else p)
  else d ++ [(k, v)]

/-- Characters of a JSON string after the opening quote, with escape
handling; returns the decoded characters and the input after the closing
quote. -/
def parseStringChars : List Char → Option (List Char × List Char)
  | [] => none
  | '"' :: rest => some ([], rest)
  | '\\' :: 'u' :: h1 :: h2 :: h3 :: h4 :: rest =>
    match hexVal h1, hexVal h2, hexVal h3, hexVal h4 with
    | some a, some b, some c, some d =>
      let code := ((a * 16 + b) * 16 + c) * 16 + d
      if 55296 ≤ code && code ≤ 57343 then none
      else
        match parseStringChars rest with
        | some (cs, r) => some (Char.ofNat code :: cs, r)
        | none => none
    | _, _, _, _ => none
  | '\\' :: e :: rest =>
    let ec : Option Char :=
      if e = '"' then some '"'
      else if e = '\\' then some '\\'
      else if e = '/' then some '/'
      else if e = 'b' then some '\x08'
      else if e = 'f' then some '\x0c'
      else if e = 'n' then some '\n'
      else if e = 'r' then some '\r'
      else if e = 't' then some '\t'
      else none
    match ec with
    | none => none
    | some c =>
      match parseStringChars rest with
      | some (cs, r) => some (c :: cs, r)
      | none => none
  | c :: rest =>
    if c.toNat < 32 then none
    else
      match parseStringChars rest with
      | some (cs, r) => some (c :: cs, r)
      | none => none

/-- A JSON string after the opening quote. -/
def parseStringRest (cs : List Char) : Option (String × List Char) :=
  (parseStringChars cs).map (fun p => (String.mk p.1, p.2))

/-- Exponent part of a JSON number (input positioned after `e`/`E`). -/
def parseExpDigits (r : List Char) : Option (Option ℤ × List Char) :=
  let p :=
    match r with
    | '+' :: r2 => (false, r2)
    | '-' :: r2 => (true, r2)
    | _ => (false, r)
  let s := p.2.span Char.isDigit
  if s.1.isEmpty then none
  else some (some (if p.1 then -(digitsVal s.1 : ℤ) else (digitsVal s.1 : ℤ)), s.2)

/-- Optional exponent of a JSON number. -/
def parseExpPart : List Char → Option (Option ℤ × List Char)
  | 'e' :: r => parseExpDigits r
  | 'E' :: r => parseExpDigits r
  | cs => some (none, cs)

/-- A JSON number at the head of the input (no leading whitespace):
`-? (0 | [1-9][0-9]*) (. digits)? ([eE] sign? digits)?`; an `int` when
there is no fraction and no exponent, else a `float`. -/
def parseNumber (cs : List Char) : Option (Json × List Char) :=
  let p :=
    match cs with
    | '-' :: r => (true, r)
    | _ => (false, cs)
  let ipr := p.2.span Char.isDigit
  if ipr.1.isEmpty then none
  else if 1 < ipr.1.length && ipr.1.head? = some '0' then none
  else
    let fpr :=
      match ipr.2 with
      | '.' :: r2 =>
        let s2 := r2.span Char.isDigit
        if s2.1.isEmpty then none else some (s2.1, s2.2)
      | _ => some ([], ipr.2)
    match fpr with
    | none => none
    | some fpp =>
      match parseExpPart fpp.2 with
      | none => none
      | some (expOpt, rest3) =>
        if fpp.1.isEmpty && expOpt.isNone then
          some (Json.int (if p.1 then -(digitsVal ipr.1 : ℤ) else (digitsVal ipr.1 : ℤ)), rest3)
        else
          let mant : ℚ := (digitsVal ipr.1 : ℚ) + (digitsVal fpp.1 : ℚ) / (10 : ℚ) ^ fpp.1.length
          let signedM : ℚ := if p.1 then -mant else mant
          let value : ℚ :=
            match expOpt with
            | some ex =>
              if ex < 0 then signedM / (10 : ℚ) ^ (-ex).toNat
              else signedM * (10 : ℚ) ^ ex.toNat
            | none => signedM
          some (Json.float value, rest3)

mutual

/-- One JSON value at the head of the input (leading whitespace
allowed), fuel-bounded. -/
def parseVal : ℕ → List Char → Option (Json × List Char)
  | 0, _ => none
  | f + 1, cs =>
    match skipWs cs with
    | '\x7b' :: rest =>
      match skipWs rest with
      | '\x7d' :: rest2 => some (.obj [], rest2)
      | _ => parseObjFields f [] rest
    | '[' :: rest =>
      match skipWs rest with
      | ']' :: rest2 => some (.arr [], rest2)
      | _ => parseArrElems f [] rest
    | '"' :: rest =>
      match parseStringRest rest with
      | some (s, rest2) => some (.str s, rest2)
      | none => none
    | 't' :: 'r' :: 'u' :: 'e' :: rest => some (.bool true, rest)
    | 'f' :: 'a' :: 'l' :: 's' :: 'e' :: rest => some (.bool false, rest)
    | 'n' :: 'u' :: 'l' :: 'l' :: rest => some (.null, rest)
    | cs2 => parseNumber cs2

/-- The members of a JSON object (input positioned before a key),
fuel-bounded; duplicate keys overwrite in place as in a Python dict. -/
def parseObjFields : ℕ → PyDict → List Char → Option (Json × List Char)
  | 0, _, _ => none
  | f + 1, acc, cs =>
    match skipWs cs with
    | '"' :: rest =>
      match parseStringRest rest with
      | none => none
      | some (k, rest2) =>
        match skipWs rest2 with
        | ':' :: rest3 =>
          match parseVal f rest3 with
          | none => none
          | some (v, rest4) =>
            match skipWs rest4 with
            | ',' :: rest5 => parseObjFields f (dictSet acc k v) rest5
            | '\x7d' :: rest5 => some (.obj (dictSet acc k v), rest5)
            | _ => none
        | _ => none
    | _ => none

/-- The elements of a JSON array (input positioned before an element),
fuel-bounded. -/
def parseArrElems : ℕ → List Json → List Char → Option (Json × List Char)
  | 0, _, _ => none
  | f + 1, acc, cs =>
    match parseVal f cs with
    | none => none
    | some (v, rest) =>
      match skipWs rest with
      | ',' :: rest2 => parseArrElems f (acc ++ [v]) rest2
      | ']' :: rest2 => some (.arr (acc ++ [v]), rest2)
      | _ => none

end

/-- Model of Python `json.loads`: parse one value, require only
whitespace after it; `none` models a raised `JSONDecodeError`. -/
def json_loads (s : String) : Option Json :=
  match parseVal (2 * s.length + 2) s.toList with
  | some (v, rest) => if (skipWs rest).isEmpty then some v else none
  | none => none

/-! ## C6: the two metadata-block scanners

`src/src/utils/html_utils.py::extract_json_ld_objects` (lines 7-35,
with the wrap-in-brackets retry) and
`src/src/extractors/product_parser.py::_extract_ld_json_blocks`
(lines 23-33, no retry). A page's script blocks are modelled by the
list of their `script.string` values (`none` when the element has no
string). -/

/-- Dict test used when flattening a parsed list block. -/
def isObjB : Json → Bool
  | .obj _ => true
  | _ => false

/-- The post-parse flattening of `extract_json_ld_objects`: a list keeps
its dict items, a dict is kept whole, scalars are dropped. -/
def flattenBlock : Json → List Json
  | .arr items => items.filter isObjB
  | .obj fields => [.obj fields]
  | _ => []

/-- `html_utils.py::extract_json_ld_objects`: per block, skip falsy
strings, strip, parse; on failure re-parse wrapped in `[` `]`; on a
second failure skip the block; flatten results. -/
def extract_json_ld_objects : List (Option String) → List Json
  | [] => []
  | none :: rest => extract_json_ld_objects rest
  | some s :: rest =>
    if s = "" then extract_json_ld_objects rest
    else if pyStrip s = "" then extract_json_ld_objects rest
    else
      match json_loads (pyStrip s) with
      | some data => flattenBlock data ++ extract_json_ld_objects rest
      | none =>
        match json_loads ("[" ++ pyStrip s ++ "]") with
        | some data => flattenBlock data ++ extract_json_ld_objects rest
        | none => extract_json_ld_objects rest

/-- `extractors/product_parser.py::_extract_ld_json_blocks`: per block,
skip falsy strings, parse the raw string as-is; on failure skip, no
retry; parsed values are appended unflattened. -/
def extract_ld_blocks : List (Option String) → List Json
  | [] => []
  | none :: rest => extract_ld_blocks rest
  | some s :: rest =>
    if s = "" then extract_ld_blocks rest
    else
      match json_loads s with
      | some data => data :: extract_ld_blocks rest
      | none => extract_ld_blocks rest

lemma extract_json_ld_objects_append (a b : List (Option String)) :
    extract_json_ld_objects (a ++ b) =
      extract_json_ld_objects a ++ extract_json_ld_objects b := by
  induction a with
  | nil => rfl
  | cons x rest ih =>
    cases x with
    | none =>
      simp only [List.cons_append, extract_json_ld_objects]
      exact ih
    | some s =>
      simp only [List.cons_append, extract_json_ld_objects]
      by_cases h0 : s = ""
      · rw [if_pos h0, if_pos h0]
        exact ih
      · rw [if_neg h0, if_neg h0]
        by_cases h1 : pyStrip s = ""
        · rw [if_pos h1, if_pos h1]
          exact ih
        · rw [if_neg h1, if_neg h1]
          cases hp : json_loads (pyStrip s) with
          | some data =>
            dsimp only
            rw [List.append_eq, ih, List.append_assoc]
          | none =>
            dsimp only
            cases hw : json_loads ("[" ++ pyStrip s ++ "]") with
            | some data =>
              dsimp only
              rw [List.append_eq, ih, List.append_assoc]
            | none =>
              dsimp only
              exact ih

lemma extract_ld_blocks_append (a b : List (Option String)) :
    extract_ld_blocks (a ++ b) = extract_ld_blocks a ++ extract_ld_blocks b := by
  induction a with
  | nil => rfl
  | cons x rest ih =>
    cases x with
    | none =>
      simp only [List.cons_append, extract_ld_blocks]
      exact ih
    | some s =>
      simp only [List.cons_append, extract_ld_blocks]
      by_cases h0 : s = ""
      · rw [if_pos h0, if_pos h0]
        exact ih
      · rw [if_neg h0, if_neg h0]
        cases hp : json_loads s with
        | some data =>
          dsimp only
          rw [List.append_eq, ih]
          rfl
        | none =>
          dsimp only
          exact ih

/-- C6 counterexample. On a block of two comma-joined sibling objects,
the plain parse fails and the wrapped parse succeeds; the `html_utils`
scanner recovers both objects, but `_extract_ld_json_blocks` does not
re-try with array delimiters and silently yields nothing for the same
page — contradicting the claim that every scanner retries the wrapped
text once. -/
theorem claim_C6_counterexample :
    extract_ld_blocks [some "\x7b\"a\": 1\x7d,\x7b\"b\": 2\x7d"] = [] ∧
    json_loads ("[" ++ "\x7b\"a\": 1\x7d,\x7b\"b\": 2\x7d" ++ "]") =
      some (Json.arr [Json.obj [("a", Json.int 1)], Json.obj [("b", Json.int 2)]]) ∧
    extract_json_ld_objects [some "\x7b\"a\": 1\x7d,\x7b\"b\": 2\x7d"] =
      [Json.obj [("a", Json.int 1)], Json.obj [("b", Json.int 2)]] :=
  ⟨rfl, rfl, rfl⟩

/-- C6 (amended). Neither scanner ever aborts on a malformed block. In
`html_utils.extract_json_ld_objects`, a block whose stripped text fails
to parse is re-tried once wrapped in array delimiters: if the wrapped
parse succeeds its dict items are spliced into the result, and if it
also fails the block is skipped silently, scanning continuing over the
remaining blocks. In `_extract_ld_json_blocks`, a failing block is
skipped silently without any retry. -/
theorem claim_C6 :
    (∀ (pre post : List (Option String)) (raw : String),
      json_loads (pyStrip raw) = none →
      json_loads ("[" ++ pyStrip raw ++ "]") = none →
      extract_json_ld_objects (pre ++ some raw :: post) =
        extract_json_ld_objects pre ++ extract_json_ld_objects post) ∧
    (∀ (pre post : List (Option String)) (raw : String) (items : List Json),
      json_loads (pyStrip raw) = none →
      json_loads ("[" ++ pyStrip raw ++ "]") = some (Json.arr items) →
      extract_json_ld_objects (pre ++ some raw :: post) =
        extract_json_ld_objects pre ++ items.filter isObjB ++ extract_json_ld_objects post) ∧
    (∀ (pre post : List (Option String)) (raw : String),
      json_loads raw = none →
      extract_ld_blocks (pre ++ some raw :: post) =
        extract_ld_blocks pre ++ extract_ld_blocks post) := by
  refine ⟨?_, ?_, ?_⟩
  · intro pre post raw hp hw
    rw [extract_json_ld_objects_append]
    congr 1
    simp only [extract_json_ld_objects]
    by_cases h0 : raw = ""
    · rw [if_pos h0]
    · rw [if_neg h0]
      by_cases h1 : pyStrip raw = ""
      · rw [if_pos h1]
      · rw [if_neg h1, hp, hw]
  · intro pre post raw items hp hw
    rw [extract_json_ld_objects_append, List.append_assoc]
    congr 1
    simp only [extract_json_ld_objects]
    by_cases h0 : raw = ""
    · have h1 : pyStrip raw = "" := by rw [h0]; rfl
      rw [if_pos h0]
      have hitems : items = [] := by
        rw [h1] at hw
        have h2 : json_loads ("[" ++ "" ++ "]") = some (Json.arr []) := rfl
        rw [h2] at hw
        injection hw with h3
        injection h3 with h4
        exact h4.symm
      rw [hitems]
      rfl
    · rw [if_neg h0]
      by_cases h1 : pyStrip raw = ""
      · rw [if_pos h1]
        have hitems : items = [] := by
          rw [h1] at hw
          have h2 : json_loads ("[" ++ "" ++ "]") = some (Json.arr []) := rfl
          rw [h2] at hw
          injection hw with h3
          injection h3 with h4
          exact h4.symm
        rw [hitems]
        rfl
      · rw [if_neg h1, hp, hw]
        rfl
  · intro pre post raw hp
    rw [extract_ld_blocks_append]
    congr 1
    simp only [extract_ld_blocks]
    by_cases h0 : raw = ""
    · rw [if_pos h0]
    · rw [if_neg h0, hp]

/-- Witness for C6: a doubly-unparseable block is skipped by the
`html_utils` scanner, the comma-joined block is recovered via the
wrapped retry, and the extractors scanner skips an unparseable block. -/
theorem claim_C6_witness :
    extract_json_ld_objects [some "\x7bbad"] = [] ∧
    extract_json_ld_objects [some "\x7b\"a\": 1\x7d,\x7b\"b\": 2\x7d"] =
      [Json.obj [("a", Json.int 1)], Json.obj [("b", Json.int 2)]] ∧
    extract_ld_blocks [some "\x7bbad"] = [] := by
  refine ⟨?_, ?_, ?_⟩
  · exact (claim_C6.1 [] [] "\x7bbad" rfl rfl).trans rfl
  · exact (claim_C6.2.1 [] [] "\x7b\"a\": 1\x7d,\x7b\"b\": 2\x7d"
      [Json.obj [("a", Json.int 1)], Json.obj [("b", Json.int 2)]] rfl rfl).trans rfl
  · exact (claim_C6.2.2 [] [] "\x7bbad" rfl).trans rfl

/-! ## C7: date normalization

`src/src/extractors/reviews_parser.py::_normalize_date` (lines 69-84)
and the identical
`src/src/extractors/questions_parser.py::_normalize_question_date`
(lines 11-23). The three formats tried in order are `%b %d, %Y`,
`%B %d, %Y` and `%Y-%m-%d`, modelled with CPython `strptime` semantics:
a format space matches one-or-more whitespace, `%b`/`%B` match the C
locale month names case-insensitively, `%d`/`%m` match one or two digits
in range (regex alternation with backtracking), `%Y` matches exactly
four digits, the whole text must be consumed, and the resulting calendar
date must be constructible (`datetime` raises on day overflow,
month/day 0 never match the regex, and year 0 is rejected). On success
`datetime.isoformat()` renders `YYYY-MM-DDT00:00:00`. -/

/-- ASCII digit test with arithmetic-friendly phrasing. -/
def isDigitChar (c : Char) : Bool :=
  48 ≤ c.toNat && c.toNat ≤ 57

/-- Value of an ASCII digit character. -/
def digitVal (c : Char) : ℕ :=
  c.toNat - 48

/-- The C locale abbreviated month names (`%b`). -/
def monthAbbrevs : List String :=
  ["Jan", "Feb", "Mar", "Apr", "May", "Jun", "Jul", "Aug", "Sep", "Oct", "Nov", "Dec"]

/-- The C locale full month names (`%B`). -/
def monthFulls : List String :=
  ["January", "February", "March", "April", "May", "June", "July", "August",
   "September", "October", "November", "December"]

/-- Lowercase a character list (ASCII). -/
def lowerList (cs : List Char) : List Char :=
  cs.map Char.toLower

/-- Case-insensitive month-name match at the head of the input; returns
the 1-based month number and the input after the name. The month-name
lists are prefix-free, so list order does not matter. -/
def matchMonthGo (names : List String) (idx : ℕ) (cs : List Char) : Option (ℕ × List Char) :=
  match names with
  | [] => none
  | n :: rest =>
    if isPrefixList (lowerList n.toList) (lowerList cs) then some (idx, cs.drop n.length)
    else matchMonthGo rest (idx + 1) cs

/-- One-or-more whitespace (a space in a `strptime` format). -/
def ws1 : List Char → Option (List Char)
  | c :: rest => if pyWsChar c then some (rest.dropWhile pyWsChar) else none
  | [] => none

/-- Digit character to value, `[0-9]`. -/
def digit09 (c : Char) : Option ℕ :=
  if c = '0' then some 0 else if c = '1' then some 1 else if c = '2' then some 2
  else if c = '3' then some 3 else if c = '4' then some 4 else if c = '5' then some 5
  else if c = '6' then some 6 else if c = '7' then some 7 else if c = '8' then some 8
  else if c = '9' then some 9 else none

/-- Digit character to value, `[1-9]`. -/
def digit19 (c : Char) : Option ℕ :=
  if c = '1' then some 1 else if c = '2' then some 2 else if c = '3' then some 3
  else if c = '4' then some 4 else if c = '5' then some 5 else if c = '6' then some 6
  else if c = '7' then some 7 else if c = '8' then some 8 else if c = '9' then some 9
  else none

/-- The two-digit alternatives of the `%d` regex
(`3[01]|[12][0-9]|0[1-9]`), with the matched value. -/
def day2 (d1 d2 : Char) : Option ℕ :=
  match digit09 d1, digit09 d2 with
  | some a, some b =>
    if (a = 3 ∧ b ≤ 1) ∨ (1 ≤ a ∧ a ≤ 2) ∨ (a = 0 ∧ 1 ≤ b) then some (a * 10 + b)
    else none
  | _, _ => none

/-- The two-digit alternatives of the `%m` regex (`1[0-2]|0[1-9]`),
with the matched value. -/
def month2 (d1 d2 : Char) : Option ℕ :=
  match digit09 d1, digit09 d2 with
  | some a, some b =>
    if (a = 1 ∧ b ≤ 2) ∨ (a = 0 ∧ 1 ≤ b) then some (a * 10 + b)
    else none
  | _, _ => none

/-- `%d` with regex backtracking: the two-digit alternatives first, then
a single `[1-9]`, each followed by the continuation. -/
def parseDayThen {α : Type} (cs : List Char) (k : ℕ → List Char → Option α) : Option α :=
  match cs with
  | d1 :: d2 :: rest =>
    match day2 d1 d2 with
    | some v =>
      match k v rest with
      | some r => some r
      | none =>
        match digit19 d1 with
        | some w => k w (d2 :: rest)
        | none => none
    | none =>
      match digit19 d1 with
      | some w => k w (d2 :: rest)
      | none => none
  | [d1] =>
    match digit19 d1 with
    | some w => k w []
    | none => none
  | [] => none

/-- `%m` with regex backtracking, as `%d`. -/
def parseMonthThen {α : Type} (cs : List Char) (k : ℕ → List Char → Option α) : Option α :=
  match cs with
  | d1 :: d2 :: rest =>
    match month2 d1 d2 with
    | some v =>
      match k v rest with
      | some r => some r
      | none =>
        match digit19 d1 with
        | some w => k w (d2 :: rest)
        | none => none
    | none =>
      match digit19 d1 with
      | some w => k w (d2 :: rest)
      | none => none
  | [d1] =>
    match digit19 d1 with
    | some w => k w []
    | none => none
  | [] => none

/-- `%Y`: exactly four digits. -/
def parse4Digits : List Char → Option (ℕ × List Char)
  | a :: b :: c :: d :: rest =>
    if isDigitChar a && isDigitChar b && isDigitChar c && isDigitChar d then
      some (digitVal a * 1000 + digitVal b * 100 + digitVal c * 10 + digitVal d, rest)
    else none
  | _ => none

/-- Gregorian leap year. -/
def isLeap (y : ℕ) : Bool :=
  y % 4 = 0 && (y % 100 != 0 || y % 400 = 0)

/-- Days in a month. -/
def daysInMonth (y m : ℕ) : ℕ :=
  if m = 2 then (if isLeap y then 29 else 28)
  else if m = 4 || m = 6 || m = 9 || m = 11 then 30
  else 31

/-- The `datetime(year, month, day)` constructibility check. -/
def validDate (y m d : ℕ) : Bool :=
  1 ≤ y && 1 ≤ m && m ≤ 12 && 1 ≤ d && d ≤ daysInMonth y m

/-- The `<month name> %d, %Y` shape shared by the first two formats
(no validity check; regex matching only, whole input consumed). -/
def parseMonthDayYearRaw (names : List String) (text : String) : Option (ℕ × ℕ × ℕ) :=
  match matchMonthGo names 1 text.toList with
  | none => none
  | some (m, r1) =>
    match ws1 r1 with
    | none => none
    | some r2 =>
      parseDayThen r2 (fun d r3 =>
        match r3 with
        | ',' :: r4 =>
          match ws1 r4 with
          | none => none
          | some r5 =>
            match parse4Digits r5 with
            | some (y, r6) => if r6.isEmpty then some (y, m, d) else none
            | none => none
        | _ => none)

/-- The `%Y-%m-%d` shape (no validity check). -/
def parseIsoRaw (text : String) : Option (ℕ × ℕ × ℕ) :=
  match parse4Digits text.toList with
  | none => none
  | some (y, r1) =>
    match r1 with
    | '-' :: r2 =>
      parseMonthThen r2 (fun m r3 =>
        match r3 with
        | '-' :: r4 =>
          parseDayThen r4 (fun d r5 => if r5.isEmpty then some (y, m, d) else none)
        | _ => none)
    | _ => none

/-- `datetime.strptime(text, "%b %d, %Y")` as a calendar date. -/
def strptimeAbbrev (text : String) : Option (ℕ × ℕ × ℕ) :=
  match parseMonthDayYearRaw monthAbbrevs text with
  | some (y, m, d) => if validDate y m d then some (y, m, d) else none
  | none => none

/-- `datetime.strptime(text, "%B %d, %Y")` as a calendar date. -/
def strptimeFull (text : String) : Option (ℕ × ℕ × ℕ) :=
  match parseMonthDayYearRaw monthFulls text with
  | some (y, m, d) => if validDate y m d then some (y, m, d) else none
  | none => none

/-- `datetime.strptime(text, "%Y-%m-%d")` as a calendar date. -/
def strptimeIso (text : String) : Option (ℕ × ℕ × ℕ) :=
  match parseIsoRaw text with
  | some (y, m, d) => if validDate y m d then some (y, m, d) else none
  | none => none

/-- ASCII digit character for a value below ten. -/
def digitChar (n : ℕ) : Char :=
  Char.ofNat (48 + n)

/-- Two-digit zero-padded rendering. -/
def pad2 (n : ℕ) : String :=
  String.mk [digitChar (n / 10 % 10), digitChar (n % 10)]

/-- Four-digit zero-padded rendering. -/
def pad4 (n : ℕ) : String :=
  String.mk [digitChar (n / 1000 % 10), digitChar (n / 100 % 10),
             digitChar (n / 10 % 10), digitChar (n % 10)]

/-- `datetime(y, m, d).isoformat()`: `YYYY-MM-DDT00:00:00`. -/
def isoformatDate (p : ℕ × ℕ × ℕ) : String :=
  pad4 p.1 ++ "-" ++ pad2 p.2.1 ++ "-" ++ pad2 p.2.2 ++ "T00:00:00"

/-- `reviews_parser.py::_normalize_date`: the three formats in order,
first successful parse wins, `None` when all fail. -/
def normalize_date (text : String) : Option String :=
  match strptimeAbbrev text with
  | some p => some (isoformatDate p)
  | none =>
    match strptimeFull text with
    | some p => some (isoformatDate p)
    | none =>
      match strptimeIso text with
      | some p => some (isoformatDate p)
      | none => none

/-- `questions_parser.py::_normalize_question_date` (an identical copy
of `_normalize_date`). -/
def normalize_question_date (text : String) : Option String :=
  match strptimeAbbrev text with
  | some p => some (isoformatDate p)
  | none =>
    match strptimeFull text with
    | some p => some (isoformatDate p)
    | none =>
      match strptimeIso text with
      | some p => some (isoformatDate p)
      | none => none

/-- Spec-side: the first of the three recognized formats to parse the
text, as a calendar date. -/
def dateFirstMatch (text : String) : Option (ℕ × ℕ × ℕ) :=
  match strptimeAbbrev text with
  | some p => some p
  | none =>
    match strptimeFull text with
    | some p => some p
    | none => strptimeIso text

/-- Digit value reader for the round-trip check. -/
def readDigit (c : Char) : Option ℕ :=
  if isDigitChar c then some (digitVal c) else none

/-- Strict reader of the `YYYY-MM-DDT00:00:00` shape produced by
`isoformatDate`, recovering the calendar date. -/
def readIsoDatetime (s : String) : Option (ℕ × ℕ × ℕ) :=
  match s.toList with
  | [y1, y2, y3, y4, c1, m1, m2, c2, d1, d2, c3, z1, z2, c4, z3, z4, c5, z5, z6] =>
    if c1 = '-' && c2 = '-' && c3 = 'T' && z1 = '0' && z2 = '0' && c4 = ':' &&
       z3 = '0' && z4 = '0' && c5 = ':' && z5 = '0' && z6 = '0' then
      match readDigit y1, readDigit y2, readDigit y3, readDigit y4,
            readDigit m1, readDigit m2, readDigit d1, readDigit d2 with
      | some a, some b, some c, some e, some f, some g, some h, some i =>
        some (a * 1000 + b * 100 + c * 10 + e, f * 10 + g, h * 10 + i)
      | _, _, _, _, _, _, _, _ => none
    else none
  | _ => none

lemma digit09_le (c : Char) (a : ℕ) (h : digit09 c = some a) : a ≤ 9 := by
  unfold digit09 at h
  split_ifs at h <;> first
    | (injection h with h2; omega)
    | exact Option.noConfusion h

lemma digit19_bounds (c : Char) (a : ℕ) (h : digit19 c = some a) : 1 ≤ a ∧ a ≤ 9 := by
  unfold digit19 at h
  split_ifs at h <;> first
    | (injection h with h2; omega)
    | exact Option.noConfusion h

lemma day2_bounds (d1 d2 : Char) (v : ℕ) (h : day2 d1 d2 = some v) : 1 ≤ v ∧ v ≤ 31 := by
  unfold day2 at h
  cases h1 : digit09 d1 with
  | none => rw [h1] at h; exact Option.noConfusion h
  | some a =>
    cases h2 : digit09 d2 with
    | none => rw [h1, h2] at h; exact Option.noConfusion h
    | some b =>
      rw [h1, h2] at h
      dsimp only at h
      split_ifs at h with hc
      injection h with h3
      have hb := digit09_le d2 b h2
      omega

lemma month2_bounds (d1 d2 : Char) (v : ℕ) (h : month2 d1 d2 = some v) : 1 ≤ v ∧ v ≤ 12 := by
  unfold month2 at h
  cases h1 : digit09 d1 with
  | none => rw [h1] at h; exact Option.noConfusion h
  | some a =>
    cases h2 : digit09 d2 with
    | none => rw [h1, h2] at h; exact Option.noConfusion h
    | some b =>
      rw [h1, h2] at h
      dsimp only at h
      split_ifs at h with hc
      injection h with h3
      have hb := digit09_le d2 b h2
      omega

lemma parseDayThen_elim {α : Type} (cs : List Char) (k : ℕ → List Char → Option α) (r : α)
    (h : parseDayThen cs k = some r) :
    ∃ d rest, 1 ≤ d ∧ d ≤ 31 ∧ k d rest = some r := by
  cases cs with
  | nil => exact Option.noConfusion h
  | cons d1 t =>
    cases t with
    | nil =>
      simp only [parseDayThen] at h
      cases hd1 : digit19 d1 with
      | some w =>
        rw [hd1] at h
        exact ⟨w, [], (digit19_bounds d1 w hd1).1,
          le_trans (digit19_bounds d1 w hd1).2 (by norm_num), h⟩
      | none => rw [hd1] at h; exact Option.noConfusion h
    | cons d2 rest =>
      simp only [parseDayThen] at h
      cases hd2 : day2 d1 d2 with
      | some v =>
        rw [hd2] at h
        dsimp only at h
        cases hk : k v rest with
        | some r2 =>
          rw [hk] at h
          injection h with h2
          subst h2
          exact ⟨v, rest, (day2_bounds d1 d2 v hd2).1, (day2_bounds d1 d2 v hd2).2, hk⟩
        | none =>
          rw [hk] at h
          dsimp only at h
          cases hd1 : digit19 d1 with
          | some w =>
            rw [hd1] at h
            exact ⟨w, d2 :: rest, (digit19_bounds d1 w hd1).1,
              le_trans (digit19_bounds d1 w hd1).2 (by norm_num), h⟩
          | none => rw [hd1] at h; exact Option.noConfusion h
      | none =>
        rw [hd2] at h
        dsimp only at h
        cases hd1 : digit19 d1 with
        | some w =>
          rw [hd1] at h
          exact ⟨w, d2 :: rest, (digit19_bounds d1 w hd1).1,
            le_trans (digit19_bounds d1 w hd1).2 (by norm_num), h⟩
        | none => rw [hd1] at h; exact Option.noConfusion h

lemma parseMonthThen_elim {α : Type} (cs : List Char) (k : ℕ → List Char → Option α) (r : α)
    (h : parseMonthThen cs k = some r) :
    ∃ m rest, 1 ≤ m ∧ m ≤ 12 ∧ k m rest = some r := by
  cases cs with
  | nil => exact Option.noConfusion h
  | cons d1 t =>
    cases t with
    | nil =>
      simp only [parseMonthThen] at h
      cases hd1 : digit19 d1 with
      | some w =>
        rw [hd1] at h
        exact ⟨w, [], (digit19_bounds d1 w hd1).1,
          le_trans (digit19_bounds d1 w hd1).2 (by norm_num), h⟩
      | none => rw [hd1] at h; exact Option.noConfusion h
    | cons d2 rest =>
      simp only [parseMonthThen] at h
      cases hd2 : month2 d1 d2 with
      | some v =>
        rw [hd2] at h
        dsimp only at h
        cases hk : k v rest with
        | some r2 =>
          rw [hk] at h
          injection h with h2
          subst h2
          exact ⟨v, rest, (month2_bounds d1 d2 v hd2).1, (month2_bounds d1 d2 v hd2).2, hk⟩
        | none =>
          rw [hk] at h
          dsimp only at h
          cases hd1 : digit19 d1 with
          | some w =>
            rw [hd1] at h
            exact ⟨w, d2 :: rest, (digit19_bounds d1 w hd1).1,
              le_trans (digit19_bounds d1 w hd1).2 (by norm_num), h⟩
          | none => rw [hd1] at h; exact Option.noConfusion h
      | none =>
        rw [hd2] at h
        dsimp only at h
        cases hd1 : digit19 d1 with
        | some w =>
          rw [hd1] at h
          exact ⟨w, d2 :: rest, (digit19_bounds d1 w hd1).1,
            le_trans (digit19_bounds d1 w hd1).2 (by norm_num), h⟩
        | none => rw [hd1] at h; exact Option.noConfusion h

lemma digitVal_le (c : Char) (h : isDigitChar c = true) : digitVal c ≤ 9 := by
  simp only [isDigitChar, Bool.and_eq_true, decide_eq_true_eq] at h
  simp only [digitVal]
  omega

lemma parse4Digits_elim (cs : List Char) (y : ℕ) (r : List Char)
    (h : parse4Digits cs = some (y, r)) : y ≤ 9999 := by
  unfold parse4Digits at h
  split at h
  · rename_i a b c d rest
    split_ifs at h with hg
    · simp only [Option.some.injEq, Prod.mk.injEq] at h
      obtain ⟨hy, _⟩ := h
      simp only [Bool.and_eq_true] at hg
      have ha := digitVal_le a hg.1.1.1
      have hb := digitVal_le b hg.1.1.2
      have hc := digitVal_le c hg.1.2
      have hd := digitVal_le d hg.2
      omega
  · exact Option.noConfusion h

lemma matchMonthGo_bound : ∀ (names : List String) (idx : ℕ) (cs : List Char) (m : ℕ)
    (r : List Char), matchMonthGo names idx cs = some (m, r) →
    idx ≤ m ∧ m < idx + names.length := by
  intro names
  induction names with
  | nil => intro idx cs m r h; exact Option.noConfusion h
  | cons n rest ih =>
    intro idx cs m r h
    simp only [matchMonthGo] at h
    split_ifs at h with hp
    · simp only [Option.some.injEq, Prod.mk.injEq] at h
      obtain ⟨hm, _⟩ := h
      subst hm
      simp only [List.length_cons]
      omega
    · have h2 := ih (idx + 1) cs m r h
      simp only [List.length_cons]
      omega

lemma validDate_elim (y m d : ℕ) (h : validDate y m d = true) :
    1 ≤ y ∧ 1 ≤ m ∧ m ≤ 12 ∧ 1 ≤ d ∧ d ≤ 31 := by
  simp only [validDate, Bool.and_eq_true, decide_eq_true_eq] at h
  have hd31 : daysInMonth y m ≤ 31 := by
    unfold daysInMonth
    split_ifs <;> omega
  omega

lemma parseMonthDayYearRaw_bounds (names : List String) (hlen : names.length ≤ 12)
    (text : String) (y m d : ℕ)
    (h : parseMonthDayYearRaw names text = some (y, m, d)) :
    y ≤ 9999 ∧ 1 ≤ m ∧ m ≤ 12 ∧ 1 ≤ d ∧ d ≤ 31 := by
  unfold parseMonthDayYearRaw at h
  cases hm1 : matchMonthGo names 1 text.toList with
  | none => rw [hm1] at h; exact Option.noConfusion h
  | some p1 =>
    rw [hm1] at h
    obtain ⟨m1, r1⟩ := p1
    dsimp only at h
    cases hw : ws1 r1 with
    | none => rw [hw] at h; exact Option.noConfusion h
    | some r2 =>
      rw [hw] at h
      dsimp only at h
      obtain ⟨d2, rest, hd1, hd31, hk⟩ := parseDayThen_elim r2 _ _ h
      try dsimp only at hk
      split at hk
      · rename_i r4
        cases hw2 : ws1 r4 with
        | none => rw [hw2] at hk; exact Option.noConfusion hk
        | some r5 =>
          rw [hw2] at hk
          dsimp only at hk
          cases h4 : parse4Digits r5 with
          | none => rw [h4] at hk; exact Option.noConfusion hk
          | some p2 =>
            rw [h4] at hk
            obtain ⟨y2, r6⟩ := p2
            dsimp only at hk
            split_ifs at hk with hemp
            simp only [Option.some.injEq, Prod.mk.injEq] at hk
            obtain ⟨hy, hm, hd⟩ := hk
            have hy4 := parse4Digits_elim r5 y2 r6 h4
            have hmb := matchMonthGo_bound names 1 text.toList m1 r1 hm1
            omega
      · exact Option.noConfusion hk

lemma parseIsoRaw_bounds (text : String) (y m d : ℕ)
    (h : parseIsoRaw text = some (y, m, d)) :
    y ≤ 9999 ∧ 1 ≤ m ∧ m ≤ 12 ∧ 1 ≤ d ∧ d ≤ 31 := by
  unfold parseIsoRaw at h
  cases h4 : parse4Digits text.toList with
  | none => rw [h4] at h; exact Option.noConfusion h
  | some p1 =>
    rw [h4] at h
    obtain ⟨y1, r1⟩ := p1
    dsimp only at h
    split at h
    · rename_i r2
      obtain ⟨m2, rest, hm1, hm12, hk⟩ := parseMonthThen_elim r2 _ _ h
      try dsimp only at hk
      split at hk
      · rename_i r4
        obtain ⟨d2, rest2, hdd1, hdd31, hk2⟩ := parseDayThen_elim r4 _ _ hk
        try dsimp only at hk2
        split_ifs at hk2 with hemp
        simp only [Option.some.injEq, Prod.mk.injEq] at hk2
        obtain ⟨hy, hm, hd⟩ := hk2
        have hy4 := parse4Digits_elim text.toList y1 _ h4
        omega
      · exact Option.noConfusion hk
    · exact Option.noConfusion h

lemma strptimeAbbrev_bounds (text : String) (y m d : ℕ)
    (h : strptimeAbbrev text = some (y, m, d)) :
    1 ≤ y ∧ y ≤ 9999 ∧ m ≤ 99 ∧ d ≤ 99 := by
  unfold strptimeAbbrev at h
  cases hr : parseMonthDayYearRaw monthAbbrevs text with
  | none => rw [hr] at h; exact Option.noConfusion h
  | some p =>
    rw [hr] at h
    obtain ⟨y2, m2, d2⟩ := p
    dsimp only at h
    split_ifs at h with hv
    simp only [Option.some.injEq, Prod.mk.injEq] at h
    obtain ⟨hy, hm, hd⟩ := h
    have hb := parseMonthDayYearRaw_bounds monthAbbrevs (by decide) text y2 m2 d2 hr
    have hval := validDate_elim y2 m2 d2 hv
    omega

lemma strptimeFull_bounds (text : String) (y m d : ℕ)
    (h : strptimeFull text = some (y, m, d)) :
    1 ≤ y ∧ y ≤ 9999 ∧ m ≤ 99 ∧ d ≤ 99 := by
  unfold strptimeFull at h
  cases hr : parseMonthDayYearRaw monthFulls text with
  | none => rw [hr] at h; exact Option.noConfusion h
  | some p =>
    rw [hr] at h
    obtain ⟨y2, m2, d2⟩ := p
    dsimp only at h
    split_ifs at h with hv
    simp only [Option.some.injEq, Prod.mk.injEq] at h
    obtain ⟨hy, hm, hd⟩ := h
    have hb := parseMonthDayYearRaw_bounds monthFulls (by decide) text y2 m2 d2 hr
    have hval := validDate_elim y2 m2 d2 hv
    omega

lemma strptimeIso_bounds (text : String) (y m d : ℕ)
    (h : strptimeIso text = some (y, m, d)) :
    1 ≤ y ∧ y ≤ 9999 ∧ m ≤ 99 ∧ d ≤ 99 := by
  unfold strptimeIso at h
  cases hr : parseIsoRaw text with
  | none => rw [hr] at h; exact Option.noConfusion h
  | some p =>
    rw [hr] at h
    obtain ⟨y2, m2, d2⟩ := p
    dsimp only at h
    split_ifs at h with hv
    simp only [Option.some.injEq, Prod.mk.injEq] at h
    obtain ⟨hy, hm, hd⟩ := h
    have hb := parseIsoRaw_bounds text y2 m2 d2 hr
    have hval := validDate_elim y2 m2 d2 hv
    omega

lemma readDigit_digitChar (n : ℕ) (hn : n < 10) : readDigit (digitChar n) = some n := by
  interval_cases n <;> rfl

lemma readIso_isoformat (y m d : ℕ) (hy : y ≤ 9999) (hm : m ≤ 99) (hd : d ≤ 99) :
    readIsoDatetime (isoformatDate (y, m, d)) = some (y, m, d) := by
  have h1 : (isoformatDate (y, m, d)).toList =
      [digitChar (y / 1000 % 10), digitChar (y / 100 % 10), digitChar (y / 10 % 10),
       digitChar (y % 10), '-', digitChar (m / 10 % 10), digitChar (m % 10), '-',
       digitChar (d / 10 % 10), digitChar (d % 10),
       'T', '0', '0', ':', '0', '0', ':', '0', '0'] := by
    show (isoformatDate (y, m, d)).data = _
    simp only [isoformatDate, String.data_append, pad4, pad2]
    rfl
  have h10 : ∀ n : ℕ, n % 10 < 10 := fun n => Nat.mod_lt _ (by norm_num)
  rw [readIsoDatetime, h1]
  dsimp only
  rw [if_pos (by decide)]
  rw [readDigit_digitChar _ (h10 _), readDigit_digitChar _ (h10 _),
    readDigit_digitChar _ (h10 _), readDigit_digitChar _ (h10 _),
    readDigit_digitChar _ (h10 _), readDigit_digitChar _ (h10 _),
    readDigit_digitChar _ (h10 _), readDigit_digitChar _ (h10 _)]
  simp only [Option.some.injEq, Prod.mk.injEq]
  refine ⟨?_, ?_, ?_⟩ <;> omega

lemma normalize_eq_chain (text : String) :
    normalize_date text = (dateFirstMatch text).map isoformatDate := by
  unfold normalize_date dateFirstMatch
  cases strptimeAbbrev text with
  | some p => rfl
  | none =>
    cases strptimeFull text with
    | some p => rfl
    | none =>
      cases strptimeIso text with
      | some p => rfl
      | none => rfl

/-- C7. For every date text, normalization tries the fixed ordered list
of exactly three formats (abbreviated-month day year, full-month day
year, ISO date); when the first successful parse denotes the calendar
date `p`, the result is the ISO-8601 value `isoformatDate p`, which
reads back to exactly the same calendar date; when no format matches,
normalization returns `none` and never raises; and the questions-parser
copy of the function agrees with the reviews-parser one on every
input. -/
theorem claim_C7 :
    (∀ (text : String) (p : ℕ × ℕ × ℕ), dateFirstMatch text = some p →
      normalize_date text = some (isoformatDate p) ∧
      readIsoDatetime (isoformatDate p) = some p) ∧
    (∀ text : String, dateFirstMatch text = none → normalize_date text = none) ∧
    (∀ text : String, normalize_question_date text = normalize_date text) := by
  refine ⟨?_, ?_, ?_⟩
  · intro text p hp
    obtain ⟨y, m, d⟩ := p
    have hb : 1 ≤ y ∧ y ≤ 9999 ∧ m ≤ 99 ∧ d ≤ 99 := by
      unfold dateFirstMatch at hp
      cases h1 : strptimeAbbrev text with
      | some q =>
        rw [h1] at hp
        injection hp with h2
        subst h2
        exact strptimeAbbrev_bounds text y m d h1
      | none =>
        rw [h1] at hp
        dsimp only at hp
        cases h2 : strptimeFull text with
        | some q =>
          rw [h2] at hp
          injection hp with h3
          subst h3
          exact strptimeFull_bounds text y m d h2
        | none =>
          rw [h2] at hp
          dsimp only at hp
          exact strptimeIso_bounds text y m d hp
    constructor
    · rw [normalize_eq_chain, hp]
      rfl
    · exact readIso_isoformat y m d hb.2.1 hb.2.2.1 hb.2.2.2
  · intro text hp
    rw [normalize_eq_chain, hp]
    rfl
  · intro text
    rfl

/-- Witness for C7: the theorem applied at `"Jan 5, 2021"` (parsed by
the first format, rendered and read back as January 5th 2021) and at a
text matching no format. -/
theorem claim_C7_witness :
    normalize_date "Jan 5, 2021" = some "2021-01-05T00:00:00" ∧
    readIsoDatetime "2021-01-05T00:00:00" = some (2021, 1, 5) ∧
    normalize_date "not a date" = none := by
  have h := claim_C7.1 "Jan 5, 2021" (2021, 1, 5) rfl
  refine ⟨h.1.trans (by rfl), ?_, claim_C7.2.1 "not a date" rfl⟩
  rw [show ("2021-01-05T00:00:00" : String) = isoformatDate (2021, 1, 5) from rfl]
  exact h.2
